import Mathlib

/-!
Verification of the parserde record-conversion library.

Shallow embedding conventions:
* Rust `u64`/`u32`/`u8` values are `Nat`s; wrap-around is written explicitly
  as `% 2 ^ 64`, `% 2 ^ 32`, `% 2 ^ 256` where the source can overflow.
* Rust `String` / `&str` / byte buffers are `List Nat` of their UTF-8 bytes
  (a Rust `String` is exactly its UTF-8 byte buffer).
* Fallible code returns `Except String α`; error payloads carry the source's
  message text, with a wrapped cause appended after ": ".
* A Rust panic (out-of-bounds slice or index) is modelled by an outer
  `Option`: `none` means the call panics.
* In-memory byte sources (`Cursor`-style, as in the crate's own tests):
  `read_exact` succeeds when enough bytes remain and fails with
  `ErrorKind::UnexpectedEof` otherwise; no other I/O error can occur, so the
  reader embeddings have no separate read-error outcome.
-/

namespace Parserde

/-- UTF-8 bytes of an ASCII string literal (all our literals are ASCII,
so the bytes are the character codes). -/
def asciiBytes (s : String) : List Nat :=
  s.toList.map Char.toNat

/-- `src/record.rs` — `enum TxType`. -/
inductive TxType where
  | DEPOSIT
  | TRANSFER
  | WITHDRAWAL
deriving DecidableEq, Repr

/-- `src/record.rs` — `enum Status`. -/
inductive Status where
  | SUCCESS
  | FAILURE
  | PENDING
deriving DecidableEq, Repr

/-- `src/record.rs` — `impl TryFrom<&u8> for TxType`. -/
def TxType.try_from_byte (value : Nat) : Except String TxType :=
  match value with
  | 0 => .ok .DEPOSIT
  | 1 => .ok .TRANSFER
  | 2 => .ok .WITHDRAWAL
  | _ => .error "couldn't convert byte to tx_type"

/-- `src/record.rs` — `impl From<&TxType> for u8`. -/
def TxType.to_byte : TxType → Nat
  | .DEPOSIT => 0
  | .TRANSFER => 1
  | .WITHDRAWAL => 2

/-- `src/record.rs` — `impl TryFrom<&str> for TxType` (input as UTF-8 bytes). -/
def TxType.try_from_str (value : List Nat) : Except String TxType :=
  if value = asciiBytes "DEPOSIT" then .ok .DEPOSIT
  else if value = asciiBytes "TRANSFER" then .ok .TRANSFER
  else if value = asciiBytes "WITHDRAWAL" then .ok .WITHDRAWAL
  else .error "invalid TxType"

/-- `src/record.rs` — `impl From<TxType> for &str`. -/
def TxType.to_str : TxType → List Nat
  | .DEPOSIT => asciiBytes "DEPOSIT"
  | .WITHDRAWAL => asciiBytes "WITHDRAWAL"
  | .TRANSFER => asciiBytes "TRANSFER"

/-- `src/record.rs` — `impl Display for TxType`. -/
def TxType.display : TxType → List Nat
  | .DEPOSIT => asciiBytes "DEPOSIT"
  | .TRANSFER => asciiBytes "TRANSFER"
  | .WITHDRAWAL => asciiBytes "WITHDRAWAL"

/-- `src/record.rs` — `impl TryFrom<&u8> for Status`. -/
def Status.try_from_byte (value : Nat) : Except String Status :=
  match value with
  | 0 => .ok .SUCCESS
  | 1 => .ok .FAILURE
  | 2 => .ok .PENDING
  | _ => .error "couldn't convert status to byte"

/-- `src/record.rs` — `impl From<&Status> for u8`. -/
def Status.to_byte : Status → Nat
  | .SUCCESS => 0
  | .FAILURE => 1
  | .PENDING => 2

/-- `src/record.rs` — `impl TryFrom<&str> for Status` (input as UTF-8 bytes). -/
def Status.try_from_str (value : List Nat) : Except String Status :=
  if value = asciiBytes "SUCCESS" then .ok .SUCCESS
  else if value = asciiBytes "FAILURE" then .ok .FAILURE
  else if value = asciiBytes "PENDING" then .ok .PENDING
  else .error "unknown status"

/-- `src/record.rs` — `impl From<Status> for &str`.  Note the source really
does render `Status::SUCCESS` as the string `"STATUS"`. -/
def Status.to_str : Status → List Nat
  | .FAILURE => asciiBytes "FAILURE"
  | .SUCCESS => asciiBytes "STATUS"
  | .PENDING => asciiBytes "PENDING"

/-- `src/record.rs` — `impl Display for Status`. -/
def Status.display : Status → List Nat
  | .FAILURE => asciiBytes "FAILURE"
  | .PENDING => asciiBytes "PENDING"
  | .SUCCESS => asciiBytes "SUCCESS"

/-- `src/record.rs` — `enum FieldValue`.  The description is the UTF-8 byte
buffer of the Rust `String`. -/
inductive FieldValue where
  | txId (val : Nat)
  | txType (val : TxType)
  | status (val : Status)
  | fromUser (val : Nat)
  | toUser (val : Nat)
  | timestamp (val : Nat)
  | amount (val : Nat)
  | description (val : List Nat)
deriving DecidableEq, Repr

/-- `src/record.rs` — `struct Record`.  Numeric fields are `u64` in the
source; the embedding uses `Nat` together with `Record.wf` below. -/
structure Record where
  tx_id : Nat
  tx_type : TxType
  from_user : Nat
  to_user : Nat
  amount : Nat
  timestamp : Nat
  status : Status
  description : List Nat
deriving DecidableEq, Repr

/-- The invariants every Rust `Record` satisfies by construction: numeric
fields are `u64` values and the description is the byte buffer of a valid
UTF-8 `String`. -/
def Record.wfNum (r : Record) : Prop :=
  r.tx_id < 2 ^ 64 ∧ r.from_user < 2 ^ 64 ∧ r.to_user < 2 ^ 64 ∧
    r.amount < 2 ^ 64 ∧ r.timestamp < 2 ^ 64

/-- `src/record.rs` — field-name byte constants (`fields::byte`, and the
`fields::str` constants have the same bytes). -/
def nameTX_ID : List Nat := asciiBytes "TX_ID"

/-- Field-name constant `TX_TYPE`. -/
def nameTX_TYPE : List Nat := asciiBytes "TX_TYPE"

/-- Field-name constant `STATUS`. -/
def nameSTATUS : List Nat := asciiBytes "STATUS"

/-- Field-name constant `FROM_USER_ID`. -/
def nameFROM_USER : List Nat := asciiBytes "FROM_USER_ID"

/-- Field-name constant `TO_USER_ID`. -/
def nameTO_USER : List Nat := asciiBytes "TO_USER_ID"

/-- Field-name constant `TIMESTAMP`. -/
def nameTIMESTAMP : List Nat := asciiBytes "TIMESTAMP"

/-- Field-name constant `AMOUNT`. -/
def nameAMOUNT : List Nat := asciiBytes "AMOUNT"

/-- Field-name constant `DESCRIPTION`. -/
def nameDESCRIPTION : List Nat := asciiBytes "DESCRIPTION"

/-- Rust `u64::from_str` on the UTF-8 bytes of the input: an optional
leading `+` (byte 43) followed by at least one ASCII digit, rejecting
values that overflow 64 bits. -/
def parseU64 (s : List Nat) : Option Nat :=
  let digits := match s with
    | 43 :: rest => rest
    | _ => s
  if digits = [] then none
  else if digits.all (fun b => 48 ≤ b ∧ b ≤ 57) then
    let v := digits.foldl (fun a b => a * 10 + (b - 48)) 0
    if v < 2 ^ 64 then some v else none
  else none

/-- `src/record.rs` — `impl Field<&str, &str>` `fn parse`: resolve a raw
textual value against a field name.  Both are UTF-8 byte lists; the name is
matched against the `fields::byte` constants exactly as
`self.name.as_bytes()` is in the source. -/
def Field.parseStr (name value : List Nat) : Except String FieldValue :=
  if name = nameTX_ID then
    match parseU64 value with
    | some v => .ok (.txId v)
    | none => .error "failed to parse tx_id"
  else if name = nameTX_TYPE then
    match TxType.try_from_str value with
    | .ok t => .ok (.txType t)
    | .error e => .error ("failed to parse tx_type: " ++ e)
  else if name = nameSTATUS then
    match Status.try_from_str value with
    | .ok s => .ok (.status s)
    | .error e => .error ("failed to parse status: " ++ e)
  else if name = nameFROM_USER then
    match parseU64 value with
    | some v => .ok (.fromUser v)
    | none => .error "failed to parse from_user"
  else if name = nameTO_USER then
    match parseU64 value with
    | some v => .ok (.toUser v)
    | none => .error "failed to parse to_user"
  else if name = nameAMOUNT then
    match parseU64 value with
    | some v => .ok (.amount v)
    | none => .error "failed to parse amount"
  else if name = nameTIMESTAMP then
    match parseU64 value with
    | some v => .ok (.timestamp v)
    | none => .error "failed to parse timestamp"
  else if name = nameDESCRIPTION then
    .ok (.description value)
  else
    .error "unknown field"

/-- `src/record.rs` — `impl TryFrom<Data<String>> for FieldValue`, first
half: find the first `:` (errors when absent), split the line there, and
take the value as `&value[2..]` — the byte right after the `:` is dropped
unconditionally.  The outer `Option` is `none` when `&value[2..]` panics:
when fewer than two bytes follow the split point, or when byte index 2 of
the value falls inside a multi-byte UTF-8 character. -/
def dataSplit (s : List Nat) : Option (Except String (List Nat × List Nat)) :=
  match s.findIdx? (fun b => b = 58) with
  | none => some (.error "no delimiter found")
  | some i =>
    let value := s.drop i
    if 2 ≤ value.length ∧
        (2 = value.length ∨ ¬ (128 ≤ value.getD 2 0 ∧ value.getD 2 0 < 192)) then
      some (.ok (s.take i, value.drop 2))
    else
      none

/-- `src/record.rs` — `impl TryFrom<Data<String>> for FieldValue`: split the
field line, then parse the two halves with `Field::parse`.  `none` is a
panic inside the split. -/
def FieldValue.try_from_data (s : List Nat) : Option (Except String FieldValue) :=
  match dataSplit s with
  | none => none
  | some (.error e) => some (.error e)
  | some (.ok (name, raw)) => some (Field.parseStr name raw)

/-- The eight optional slots `Record::try_from` folds `FieldValue`s into. -/
structure RecordAcc where
  tx_id : Option Nat := none
  tx_type : Option TxType := none
  from_user : Option Nat := none
  to_user : Option Nat := none
  status : Option Status := none
  amount : Option Nat := none
  timestamp : Option Nat := none
  description : Option (List Nat) := none
deriving DecidableEq, Repr

/-- One step of the fold in `Record::try_from`: each variant overwrites its
slot (last write wins). -/
def accStep (acc : RecordAcc) : FieldValue → RecordAcc
  | .txId v => { acc with tx_id := some v }
  | .txType v => { acc with tx_type := some v }
  | .amount v => { acc with amount := some v }
  | .fromUser v => { acc with from_user := some v }
  | .toUser v => { acc with to_user := some v }
  | .timestamp v => { acc with timestamp := some v }
  | .description v => { acc with description := some v }
  | .status v => { acc with status := some v }

/-- `src/record.rs` — `impl TryFrom<Vec<FieldValue>> for Record`: fold the
values into slots, then require every slot, failing with the message of the
first unset slot in the order the source's `?` operators run. -/
def Record.try_from (value : List FieldValue) : Except String Record :=
  let acc := value.foldl accStep {}
  match acc.tx_id with
  | none => .error "missing field tx_id"
  | some tx_id =>
  match acc.tx_type with
  | none => .error "missing field tx_type"
  | some tx_type =>
  match acc.from_user with
  | none => .error "missing field from_user"
  | some from_user =>
  match acc.to_user with
  | none => .error "missing field to_user"
  | some to_user =>
  match acc.amount with
  | none => .error "missing field amount"
  | some amount =>
  match acc.timestamp with
  | none => .error "missing field timestamp"
  | some timestamp =>
  match acc.status with
  | none => .error "missing field status"
  | some status =>
  match acc.description with
  | none => .error "missing field description"
  | some description =>
    .ok { tx_id, tx_type, from_user, to_user, amount, timestamp, status,
          description }

/-! ## UTF-8 validity (`String::from_utf8`) -/

/-- One-byte-at-a-time UTF-8 well-formedness automaton: `exp` is the list
of (lo, hi) ranges the next continuation bytes must fall in. -/
def utf8ValidAux : List (Nat × Nat) → List Nat → Bool
  | [], [] => true
  | _ :: _, [] => false
  | [], b :: rest =>
    if b < 128 then utf8ValidAux [] rest
    else if 194 ≤ b ∧ b ≤ 223 then utf8ValidAux [(128, 191)] rest
    else if b = 224 then utf8ValidAux [(160, 191), (128, 191)] rest
    else if (225 ≤ b ∧ b ≤ 236) ∨ (238 ≤ b ∧ b ≤ 239) then
      utf8ValidAux [(128, 191), (128, 191)] rest
    else if b = 237 then utf8ValidAux [(128, 159), (128, 191)] rest
    else if b = 240 then utf8ValidAux [(144, 191), (128, 191), (128, 191)] rest
    else if 241 ≤ b ∧ b ≤ 243 then
      utf8ValidAux [(128, 191), (128, 191), (128, 191)] rest
    else if b = 244 then utf8ValidAux [(128, 143), (128, 191), (128, 191)] rest
    else false
  | (lo, hi) :: exp, b :: rest =>
    if lo ≤ b ∧ b ≤ hi then utf8ValidAux exp rest else false

/-- The UTF-8 well-formedness check performed by `String::from_utf8`
(RFC 3629 table: surrogates and overlong encodings rejected). -/
def utf8Valid (l : List Nat) : Bool :=
  utf8ValidAux [] l

/-- `String::from_utf8`: the bytes themselves when they are valid UTF-8
(the Rust `String` is its byte buffer), an error otherwise. -/
def stringFromUtf8 (l : List Nat) : Except String (List Nat) :=
  if utf8Valid l then .ok l else .error "invalid utf-8"

/-! ## BIN codec (`src/formats/bin.rs`) -/

/-- Big-endian value of a byte list (`u64::from_be_bytes` /
`u32::from_be_bytes` once the length has been checked). -/
def beVal (l : List Nat) : Nat :=
  l.foldl (fun a b => a * 256 + b) 0

/-- `u64::to_be_bytes` of a `u64` value (reduced mod `2 ^ 64`). -/
def u64ToBeBytes (n : Nat) : List Nat :=
  let v := n % 2 ^ 64
  [v / 2 ^ 56 % 256, v / 2 ^ 48 % 256, v / 2 ^ 40 % 256, v / 2 ^ 32 % 256,
   v / 2 ^ 24 % 256, v / 2 ^ 16 % 256, v / 2 ^ 8 % 256, v % 256]

/-- `u32::to_be_bytes` of a `u32` value (reduced mod `2 ^ 32`). -/
def u32ToBeBytes (n : Nat) : List Nat :=
  let v := n % 2 ^ 32
  [v / 2 ^ 24 % 256, v / 2 ^ 16 % 256, v / 2 ^ 8 % 256, v % 256]

/-- `src/formats/bin.rs` — `try_u64_from_bytes`: `TryFromSliceError` unless
the slice has exactly 8 bytes. -/
def try_u64_from_bytes (bytes : List Nat) : Except String Nat :=
  if bytes.length = 8 then .ok (beVal bytes)
  else .error "could not convert slice to array"

/-- `src/formats/bin.rs` — `impl Field<&str, &[u8]>` `fn parse`: resolve a
byte-slice value against a field name (the `fields::str` constants).  The
outer `Option` is `none` when the source would panic: the `TX_TYPE` and
`STATUS` arms index `self.value[0]`, which panics on an empty slice. -/
def Field.parseBin (name : String) (value : List Nat) :
    Option (Except String FieldValue) :=
  if name = "TX_ID" then
    some (match try_u64_from_bytes value with
      | .ok v => .ok (.txId v)
      | .error _ => .error "failed to parse tx_id")
  else if name = "TX_TYPE" then
    match value with
    | [] => none
    | b :: _ =>
      some (match TxType.try_from_byte b with
        | .ok t => .ok (.txType t)
        | .error _ => .error "failed to parse tx_type")
  else if name = "STATUS" then
    match value with
    | [] => none
    | b :: _ =>
      some (match Status.try_from_byte b with
        | .ok s => .ok (.status s)
        | .error _ => .error "failed to parse status")
  else if name = "FROM_USER_ID" then
    some (match try_u64_from_bytes value with
      | .ok v => .ok (.fromUser v)
      | .error _ => .error "failed to parse from_user")
  else if name = "TO_USER_ID" then
    some (match try_u64_from_bytes value with
      | .ok v => .ok (.toUser v)
      | .error _ => .error "failed to parse to_user")
  else if name = "AMOUNT" then
    some (match try_u64_from_bytes value with
      | .ok v => .ok (.amount v)
      | .error _ => .error "failed to parse amount")
  else if name = "TIMESTAMP" then
    some (match try_u64_from_bytes value with
      | .ok v => .ok (.timestamp v)
      | .error _ => .error "failed to parse timestamp")
  else if name = "DESCRIPTION" then
    some (match stringFromUtf8 value with
      | .ok s => .ok (.description s)
      | .error e => .error ("failed to parse description: " ++ e))
  else
    some (.error ("unknown field: " ++ name))

/-- Rust range slice `&xs[a..b]`: panics (`none`) unless `a ≤ b ≤ xs.len()`. -/
def rustSliceRange (xs : List Nat) (a b : Nat) : Option (List Nat) :=
  if a ≤ b ∧ b ≤ xs.length then some ((xs.drop a).take (b - a)) else none

/-- Rust open-ended slice `&xs[a..]`: panics (`none`) unless `a ≤ xs.len()`. -/
def rustSliceFrom (xs : List Nat) (a : Nat) : Option (List Nat) :=
  if a ≤ xs.length then some (xs.drop a) else none

/-- The per-field loop body of `parse_body`: parse each (name, slice) pair
in order, wrapping a field error as `RecordParseError` naming the field;
propagate a panic from `Field::parse`. -/
def parseFields : List (String × List Nat) → Option (Except String (List FieldValue))
  | [] => some (.ok [])
  | (n, b) :: rest =>
    match Field.parseBin n b with
    | none => none
    | some (.error e) => some (.error ("failed to parse field " ++ n ++ ": " ++ e))
    | some (.ok v) =>
      match parseFields rest with
      | none => none
      | some (.error e) => some (.error e)
      | some (.ok vs) => some (.ok (v :: vs))

/-- `src/formats/bin.rs` — `parse_body`: slice the body at the fixed
offsets (all eight slices are taken when the `fields_to_parse` array is
built, so a short body panics — `none` — before any field is parsed), parse
each field, then assemble the record with `Record::try_from`. -/
def parse_body (body : List Nat) : Option (Except String Record) :=
  match rustSliceRange body 0 8 with
  | none => none
  | some s0 =>
  match rustSliceRange body 8 9 with
  | none => none
  | some s1 =>
  match rustSliceRange body 9 17 with
  | none => none
  | some s2 =>
  match rustSliceRange body 17 25 with
  | none => none
  | some s3 =>
  match rustSliceRange body 25 33 with
  | none => none
  | some s4 =>
  match rustSliceRange body 33 41 with
  | none => none
  | some s5 =>
  match rustSliceRange body 41 42 with
  | none => none
  | some s6 =>
  match rustSliceFrom body 46 with
  | none => none
  | some s7 =>
  match parseFields
      [("TX_ID", s0), ("TX_TYPE", s1), ("FROM_USER_ID", s2), ("TO_USER_ID", s3),
       ("AMOUNT", s4), ("TIMESTAMP", s5), ("STATUS", s6), ("DESCRIPTION", s7)] with
  | none => none
  | some (.error e) => some (.error e)
  | some (.ok vs) =>
    some (match Record.try_from vs with
      | .ok r => .ok r
      | .error e => .error ("failed to parse record: " ++ e))

/-- `src/formats/bin.rs` — `impl RecordSerialize for RecordBytes`
`fn serialize`: the `YPBN` tag, the big-endian `u32` body length
`46 + desc_length` (`u32` arithmetic, so it wraps mod `2 ^ 32`), and the
46-byte fixed part followed by the description bytes. -/
def RecordBytes.serialize (record : Record) : List Nat :=
  let desc_length := record.description.length % 2 ^ 32
  asciiBytes "YPBN"
    ++ u32ToBeBytes ((46 + desc_length) % 2 ^ 32)
    ++ u64ToBeBytes record.tx_id
    ++ [record.tx_type.to_byte]
    ++ u64ToBeBytes record.from_user
    ++ u64ToBeBytes record.to_user
    ++ u64ToBeBytes record.amount
    ++ u64ToBeBytes record.timestamp
    ++ [record.status.to_byte]
    ++ u32ToBeBytes desc_length
    ++ record.description

/-- `src/formats/bin.rs` — `impl DataConsumer for BinReader` `fn read`,
specialized to an in-memory byte source.  `read_exact` of the 8-byte head
or of the declared body fails with `UnexpectedEof` when too few bytes
remain, which the source maps to `is_exhausted = true; return None` — so
both truncation points are a clean end-of-stream (`none`), never a read
error.  On success: the body bytes and the unconsumed remainder. -/
def BinReader.read (bs : List Nat) : Option (List Nat × List Nat) :=
  if bs.length < 8 then none
  else if (bs.drop 8).length < beVal ((bs.drop 4).take 4) then none
  else
    some ((bs.drop 8).take (beVal ((bs.drop 4).take 4)),
          (bs.drop 8).drop (beVal ((bs.drop 4).take 4)))

/-- Outcome of one `produce_record` call: end-of-stream, a Rust panic, or a
produced item (result plus remaining input). -/
instance {ε α : Type} [DecidableEq ε] [DecidableEq α] : DecidableEq (Except ε α) :=
  fun a b =>
    match a, b with
    | .ok x, .ok y =>
      if h : x = y then .isTrue (by rw [h])
      else .isFalse (by intro he; cases he; exact h rfl)
    | .ok _, .error _ => .isFalse (by intro he; cases he)
    | .error _, .ok _ => .isFalse (by intro he; cases he)
    | .error x, .error y =>
      if h : x = y then .isTrue (by rw [h])
      else .isFalse (by intro he; cases he; exact h rfl)

inductive Produced (σ : Type) where
  | eos
  | panic
  | item (r : Except String Record) (rest : σ)
deriving DecidableEq, Repr

/-- `src/formats/bin.rs` — `impl DataProducer for BinReader`
`fn produce_record`: read one frame body, parse it, wrap a parse failure as
a `RecordProduceError`. -/
def BinReader.produce_record (bs : List Nat) : Produced (List Nat) :=
  match BinReader.read bs with
  | none => .eos
  | some (body, rest) =>
    match parse_body body with
    | none => .panic
    | some (.error e) => .item (.error ("failed to parse record: " ++ e)) rest
    | some (.ok r) => .item (.ok r) rest

/-- `BinReader.read` consumes at least the 8 head bytes. -/
theorem BinReader.read_length_lt {bs body rest : List Nat}
    (h : BinReader.read bs = some (body, rest)) : rest.length < bs.length := by
  unfold BinReader.read at h
  split at h
  · exact absurd h (by simp)
  · split at h
    · exact absurd h (by simp)
    · next h8 _ =>
      have hr : rest = (bs.drop 8).drop (beVal ((bs.drop 4).take 4)) := by
        injection h with h1
        injection h1 with _ h2
        exact h2.symm
      subst hr
      simp only [List.length_drop]
      omega

/-- `BinReader.produce_record` consumes input when it yields an item. -/
theorem BinReader.produce_record_length_lt {bs rest : List Nat}
    {r : Except String Record}
    (h : BinReader.produce_record bs = .item r rest) : rest.length < bs.length := by
  cases hr : BinReader.read bs with
  | none => simp [BinReader.produce_record, hr] at h
  | some pr =>
    obtain ⟨body, rest'⟩ := pr
    cases hp : parse_body body with
    | none => simp [BinReader.produce_record, hr, hp] at h
    | some res =>
      have hrr : rest = rest' := by
        cases res with
        | error e =>
          simp only [BinReader.produce_record, hr, hp, Produced.item.injEq] at h
          exact h.2.symm
        | ok r' =>
          simp only [BinReader.produce_record, hr, hp, Produced.item.injEq] at h
          exact h.2.symm
      subst hrr
      exact BinReader.read_length_lt hr

/-- The whole stream of `produce_record` results, as the converter/comparer
loops drive it: collect every produced result until end-of-stream; a panic
aborts the process and is recorded as a final `none`. -/
def binProduceAll (bs : List Nat) : List (Option (Except String Record)) :=
  match h : BinReader.produce_record bs with
  | .eos => []
  | .panic => [none]
  | .item r rest => some r :: binProduceAll rest
termination_by bs.length
decreasing_by exact BinReader.produce_record_length_lt h

/-! ## TXT codec (`src/formats/txt.rs`)

The byte source is modelled after it has been cut into lines by
`BufRead::read_line` with the trailing newline already popped, so the
reader state is the list of remaining lines (each a UTF-8 byte list). -/

/-- `src/formats/txt.rs` — the loop inside `TxtReader::produce_record`,
with `read_payload`'s comment skipping inlined (a `#`-prefixed line is
skipped and changes nothing): accumulate parsed field lines until a blank
line or end-of-stream, then assemble with `Record::try_from`.  A record
with zero accumulated fields is a clean end-of-stream; a field-parse
failure or assembly failure is a produce error; a panic inside the
field-line split aborts. -/
def txtProduceAux (fields : List FieldValue) :
    List (List Nat) → Produced (List (List Nat))
  | [] =>
    if fields = [] then .eos
    else
      match Record.try_from fields with
      | .ok r => .item (.ok r) []
      | .error e => .item (.error ("failed to parse record: " ++ e)) []
  | l :: rest =>
    if l.head? = some 35 then txtProduceAux fields rest
    else if l = [] then
      if fields = [] then .eos
      else
        match Record.try_from fields with
        | .ok r => .item (.ok r) rest
        | .error e => .item (.error ("failed to parse record: " ++ e)) rest
    else
      match FieldValue.try_from_data l with
      | none => .panic
      | some (.error e) => .item (.error ("failed to parse field: " ++ e)) rest
      | some (.ok v) => txtProduceAux (fields ++ [v]) rest

/-- `src/formats/txt.rs` — `impl DataProducer for TxtReader`
`fn produce_record`. -/
def TxtReader.produce_record (lines : List (List Nat)) : Produced (List (List Nat)) :=
  txtProduceAux [] lines

/-- An item produced by the loop leaves strictly fewer lines, except that
an all-comments tail can stop at the very end with everything consumed. -/
theorem txtProduceAux_length_lt :
    ∀ (lines : List (List Nat)) (fields : List FieldValue)
      (r : Except String Record) (rest : List (List Nat)),
      txtProduceAux fields lines = .item r rest →
      rest.length < lines.length ∨ (rest = [] ∧ lines = []) := by
  intro lines
  induction lines with
  | nil =>
    intro fields r rest heq
    right
    refine ⟨?_, rfl⟩
    unfold txtProduceAux at heq
    by_cases hf : fields = []
    · rw [if_pos hf] at heq; exact absurd heq (by simp)
    · rw [if_neg hf] at heq
      split at heq <;> (injection heq with _ h2; exact h2.symm)
  | cons x xs ih =>
    intro fields r rest heq
    unfold txtProduceAux at heq
    by_cases hc : x.head? = some 35
    · rw [if_pos hc] at heq
      rcases ih fields r rest heq with hlt | ⟨h1, h2⟩
      · exact Or.inl (Nat.lt_trans hlt (by simp))
      · subst h1 h2; exact Or.inl (by simp)
    · rw [if_neg hc] at heq
      by_cases hb : x = []
      · rw [if_pos hb] at heq
        by_cases hf : fields = []
        · rw [if_pos hf] at heq; exact absurd heq (by simp)
        · rw [if_neg hf] at heq
          left
          have : rest = xs := by
            split at heq <;> (injection heq with _ h2; exact h2.symm)
          subst this
          simp
      · rw [if_neg hb] at heq
        cases hp : FieldValue.try_from_data x with
        | none => rw [hp] at heq; exact absurd heq (by simp)
        | some res =>
          rw [hp] at heq
          cases res with
          | error e =>
            left
            have : rest = xs := by injection heq with _ h2; exact h2.symm
            subst this
            simp
          | ok v =>
            rcases ih (fields ++ [v]) r rest heq with hlt | ⟨h1, h2⟩
            · exact Or.inl (Nat.lt_trans hlt (by simp))
            · subst h1 h2; exact Or.inl (by simp)

/-- `TxtReader.produce_record` consumes input when it yields an item. -/
theorem txtProduce_length_lt {lines rest : List (List Nat)}
    {r : Except String Record}
    (h : TxtReader.produce_record lines = .item r rest) :
    rest.length < lines.length := by
  rcases txtProduceAux_length_lt lines [] r rest h with h1 | ⟨h1, h2⟩
  · exact h1
  · subst h2
    exact absurd h (by simp [TxtReader.produce_record, txtProduceAux])

/-- The whole stream of TXT `produce_record` results: collect every
produced result until end-of-stream; a panic aborts and is a final `none`. -/
def txtProduceAll (lines : List (List Nat)) : List (Option (Except String Record)) :=
  match h : TxtReader.produce_record lines with
  | .eos => []
  | .panic => [none]
  | .item r rest => some r :: txtProduceAll rest
termination_by lines.length
decreasing_by exact txtProduce_length_lt h

/-! ## Dispatch / builder (`src/builder.rs`)

The builders wire a codec to a source or sink; since every codec
constructor in the source is infallible, the only construction-time
failure is an unsupported format string, and the embedding records which
codec was selected. -/

/-- The three codecs the dispatch layer can select. -/
inductive Format where
  | csv
  | txt
  | bin
deriving DecidableEq, Repr

/-- `src/builder.rs` — `build_reader`: map the format string to a reader,
rejecting anything but `"csv"`, `"txt"`, `"bin"`. -/
def build_reader (format : String) : Except String Format :=
  if format = "csv" then .ok .csv
  else if format = "txt" then .ok .txt
  else if format = "bin" then .ok .bin
  else .error ("given an unsupported format " ++ format)

/-- `src/builder.rs` — `build_serializer`: same dispatch for serializers
(the source lists the arms in the order csv, bin, txt). -/
def build_serializer (format : String) : Except String Format :=
  if format = "csv" then .ok .csv
  else if format = "bin" then .ok .bin
  else if format = "txt" then .ok .txt
  else .error ("given an unsupported format " ++ format)

/-- `src/builder.rs` — `build_writer`: same dispatch for writers. -/
def build_writer (output_format : String) : Except String Format :=
  if output_format = "csv" then .ok .csv
  else if output_format = "txt" then .ok .txt
  else if output_format = "bin" then .ok .bin
  else .error ("given an unsupported format " ++ output_format)

/-! ## Helper lemmas -/

theorem length_u64ToBeBytes (n : Nat) : (u64ToBeBytes n).length = 8 := rfl

theorem length_u32ToBeBytes (n : Nat) : (u32ToBeBytes n).length = 4 := rfl

theorem beVal_u32ToBeBytes (n : Nat) : beVal (u32ToBeBytes n) = n % 2 ^ 32 := by
  simp only [beVal, u32ToBeBytes, List.foldl]
  omega

theorem beVal_u64ToBeBytes (n : Nat) : beVal (u64ToBeBytes n) = n % 2 ^ 64 := by
  simp only [beVal, u64ToBeBytes, List.foldl]
  omega

theorem try_u64_from_bytes_roundtrip (n : Nat) :
    try_u64_from_bytes (u64ToBeBytes n) = .ok (n % 2 ^ 64) := by
  rw [try_u64_from_bytes, if_pos (length_u64ToBeBytes n), beVal_u64ToBeBytes]

/-- A range slice that falls on an exact segment of a concatenation. -/
theorem rustSliceRange_exact (front seg tail : List Nat) (a b : Nat)
    (hf : front.length = a) (hs : seg.length = b - a) (hab : a ≤ b) :
    rustSliceRange (front ++ seg ++ tail) a b = some seg := by
  unfold rustSliceRange
  rw [if_pos ⟨hab, by simp only [List.length_append]; omega⟩]
  congr 1
  subst hf
  rw [List.append_assoc, List.drop_left, ← hs, List.take_left]

/-- An open-ended slice that starts exactly at the end of a prefix. -/
theorem rustSliceFrom_exact (front tail : List Nat) (a : Nat)
    (hf : front.length = a) :
    rustSliceFrom (front ++ tail) a = some tail := by
  unfold rustSliceFrom
  rw [if_pos (by simp only [List.length_append]; omega)]
  rw [← hf, List.drop_left]

/-- A range slice confined to the first `pre.length` bytes does not look at
what follows. -/
theorem rustSliceRange_confined (pre tail : List Nat) (a b : Nat)
    (hab : a ≤ b) (hb : b ≤ pre.length) :
    rustSliceRange (pre ++ tail) a b = some ((pre.drop a).take (b - a)) := by
  unfold rustSliceRange
  rw [if_pos ⟨hab, by simp only [List.length_append]; omega⟩]
  congr 1
  rw [List.drop_append_eq_append_drop, List.take_append_eq_append_take]
  have h1 : (pre.drop a).length = pre.length - a := List.length_drop a pre
  have h2 : b - a - (pre.drop a).length = 0 := by omega
  have h3 : a - pre.length = 0 := by omega
  rw [h2, h3, List.take_zero, List.append_nil]

theorem BinReader.read_frame (t l rest : List Nat)
    (ht : t.length = 4) (hl : l.length = 4) (h : beVal l ≤ rest.length) :
    BinReader.read (t ++ l ++ rest) =
      some (rest.take (beVal l), rest.drop (beVal l)) := by
  have e1 : (t ++ l ++ rest).drop 4 = l ++ rest := by
    rw [List.append_assoc, ← ht, List.drop_left]
  have hd4 : ((t ++ l ++ rest).drop 4).take 4 = l := by
    rw [e1, ← hl, List.take_left]
  have hd8 : (t ++ l ++ rest).drop 8 = rest := by
    have h8 : (t ++ l).length = 8 := by simp only [List.length_append]; omega
    rw [← h8, List.drop_left]
  unfold BinReader.read
  rw [if_neg (by simp only [List.length_append]; omega)]
  rw [hd4, hd8, if_neg (by omega)]

theorem BinReader.read_frame_short (t l rest : List Nat)
    (ht : t.length = 4) (hl : l.length = 4) (h : rest.length < beVal l) :
    BinReader.read (t ++ l ++ rest) = none := by
  have e1 : (t ++ l ++ rest).drop 4 = l ++ rest := by
    rw [List.append_assoc, ← ht, List.drop_left]
  have hd4 : ((t ++ l ++ rest).drop 4).take 4 = l := by
    rw [e1, ← hl, List.take_left]
  have hd8 : (t ++ l ++ rest).drop 8 = rest := by
    have h8 : (t ++ l).length = 8 := by simp only [List.length_append]; omega
    rw [← h8, List.drop_left]
  unfold BinReader.read
  rw [if_neg (by simp only [List.length_append]; omega)]
  rw [hd4, hd8, if_pos (by omega)]

theorem BinReader.read_short (bs : List Nat) (h : bs.length < 8) :
    BinReader.read bs = none := by
  unfold BinReader.read
  rw [if_pos h]

theorem binProduceAll_of_eos {bs : List Nat}
    (h : BinReader.produce_record bs = .eos) : binProduceAll bs = [] := by
  rw [binProduceAll]
  split
  · rfl
  · next heq => rw [h] at heq; exact absurd heq (by simp)
  · next heq => rw [h] at heq; exact absurd heq (by simp)

theorem binProduceAll_of_panic {bs : List Nat}
    (h : BinReader.produce_record bs = .panic) : binProduceAll bs = [none] := by
  rw [binProduceAll]
  split
  · next heq => rw [h] at heq; exact absurd heq (by simp)
  · rfl
  · next heq => rw [h] at heq; exact absurd heq (by simp)

theorem binProduceAll_of_item {bs rest : List Nat} {r : Except String Record}
    (h : BinReader.produce_record bs = .item r rest) :
    binProduceAll bs = some r :: binProduceAll rest := by
  rw [binProduceAll]
  split
  · next heq => rw [h] at heq; exact absurd heq (by simp)
  · next heq => rw [h] at heq; exact absurd heq (by simp)
  · next r' rest' heq =>
    rw [h] at heq
    injection heq with h1 h2
    subst h1 h2
    rfl

theorem txtProduceAll_of_eos {lines : List (List Nat)}
    (h : TxtReader.produce_record lines = .eos) : txtProduceAll lines = [] := by
  rw [txtProduceAll]
  split
  · rfl
  · next heq => rw [h] at heq; exact absurd heq (by simp)
  · next heq => rw [h] at heq; exact absurd heq (by simp)

theorem txtProduceAll_of_panic {lines : List (List Nat)}
    (h : TxtReader.produce_record lines = .panic) : txtProduceAll lines = [none] := by
  rw [txtProduceAll]
  split
  · next heq => rw [h] at heq; exact absurd heq (by simp)
  · rfl
  · next heq => rw [h] at heq; exact absurd heq (by simp)

theorem txtProduceAll_of_item {lines rest : List (List Nat)}
    {r : Except String Record}
    (h : TxtReader.produce_record lines = .item r rest) :
    txtProduceAll lines = some r :: txtProduceAll rest := by
  rw [txtProduceAll]
  split
  · next heq => rw [h] at heq; exact absurd heq (by simp)
  · next heq => rw [h] at heq; exact absurd heq (by simp)
  · next r' rest' heq =>
    rw [h] at heq
    injection heq with h1 h2
    subst h1 h2
    rfl

theorem parse_body_short (body : List Nat) (h : body.length < 46) :
    parse_body body = none := by
  have h7 : rustSliceFrom body 46 = none := by
    unfold rustSliceFrom
    rw [if_neg (by omega)]
  unfold parse_body
  rw [h7]
  repeat' split
  all_goals (try rfl)
  all_goals simp_all

theorem parse_body_decomp (A B C D E F G H I : List Nat)
    (hA : A.length = 8) (hB : B.length = 1) (hC : C.length = 8)
    (hD : D.length = 8) (hE : E.length = 8) (hF : F.length = 8)
    (hG : G.length = 1) (hH : H.length = 4) :
    parse_body (A ++ B ++ C ++ D ++ E ++ F ++ G ++ H ++ I) =
      match parseFields
          [("TX_ID", A), ("TX_TYPE", B), ("FROM_USER_ID", C), ("TO_USER_ID", D),
           ("AMOUNT", E), ("TIMESTAMP", F), ("STATUS", G), ("DESCRIPTION", I)] with
      | none => none
      | some (.error e) => some (.error e)
      | some (.ok vs) =>
        some (match Record.try_from vs with
          | .ok r => .ok r
          | .error e => .error ("failed to parse record: " ++ e)) := by
  have s0 : rustSliceRange (A ++ B ++ C ++ D ++ E ++ F ++ G ++ H ++ I) 0 8 = some A := by
    rw [show A ++ B ++ C ++ D ++ E ++ F ++ G ++ H ++ I = ([] : List Nat) ++ A ++ (B ++ C ++ D ++ E ++ F ++ G ++ H ++ I) by simp]
    exact rustSliceRange_exact ([] : List Nat) A (B ++ C ++ D ++ E ++ F ++ G ++ H ++ I) 0 8 rfl (by simp [hA]) (by omega)
  have s1 : rustSliceRange (A ++ B ++ C ++ D ++ E ++ F ++ G ++ H ++ I) 8 9 = some B := by
    rw [show A ++ B ++ C ++ D ++ E ++ F ++ G ++ H ++ I = (A) ++ B ++ (C ++ D ++ E ++ F ++ G ++ H ++ I) by simp]
    exact rustSliceRange_exact (A) B (C ++ D ++ E ++ F ++ G ++ H ++ I) 8 9 (by simp [hA]) (by simp [hB]) (by omega)
  have s2 : rustSliceRange (A ++ B ++ C ++ D ++ E ++ F ++ G ++ H ++ I) 9 17 = some C := by
    rw [show A ++ B ++ C ++ D ++ E ++ F ++ G ++ H ++ I = (A ++ B) ++ C ++ (D ++ E ++ F ++ G ++ H ++ I) by simp]
    exact rustSliceRange_exact (A ++ B) C (D ++ E ++ F ++ G ++ H ++ I) 9 17 (by simp [hA, hB]) (by simp [hC]) (by omega)
  have s3 : rustSliceRange (A ++ B ++ C ++ D ++ E ++ F ++ G ++ H ++ I) 17 25 = some D := by
    rw [show A ++ B ++ C ++ D ++ E ++ F ++ G ++ H ++ I = (A ++ B ++ C) ++ D ++ (E ++ F ++ G ++ H ++ I) by simp]
    exact rustSliceRange_exact (A ++ B ++ C) D (E ++ F ++ G ++ H ++ I) 17 25 (by simp [hA, hB, hC]) (by simp [hD]) (by omega)
  have s4 : rustSliceRange (A ++ B ++ C ++ D ++ E ++ F ++ G ++ H ++ I) 25 33 = some E := by
    rw [show A ++ B ++ C ++ D ++ E ++ F ++ G ++ H ++ I = (A ++ B ++ C ++ D) ++ E ++ (F ++ G ++ H ++ I) by simp]
    exact rustSliceRange_exact (A ++ B ++ C ++ D) E (F ++ G ++ H ++ I) 25 33 (by simp [hA, hB, hC, hD]) (by simp [hE]) (by omega)
  have s5 : rustSliceRange (A ++ B ++ C ++ D ++ E ++ F ++ G ++ H ++ I) 33 41 = some F := by
    rw [show A ++ B ++ C ++ D ++ E ++ F ++ G ++ H ++ I = (A ++ B ++ C ++ D ++ E) ++ F ++ (G ++ H ++ I) by simp]
    exact rustSliceRange_exact (A ++ B ++ C ++ D ++ E) F (G ++ H ++ I) 33 41 (by simp [hA, hB, hC, hD, hE]) (by simp [hF]) (by omega)
  have s6 : rustSliceRange (A ++ B ++ C ++ D ++ E ++ F ++ G ++ H ++ I) 41 42 = some G := by
    rw [show A ++ B ++ C ++ D ++ E ++ F ++ G ++ H ++ I = (A ++ B ++ C ++ D ++ E ++ F) ++ G ++ (H ++ I) by simp]
    exact rustSliceRange_exact (A ++ B ++ C ++ D ++ E ++ F) G (H ++ I) 41 42 (by simp [hA, hB, hC, hD, hE, hF]) (by simp [hG]) (by omega)
  have s7 : rustSliceFrom (A ++ B ++ C ++ D ++ E ++ F ++ G ++ H ++ I) 46 = some I := by
    rw [show A ++ B ++ C ++ D ++ E ++ F ++ G ++ H ++ I = (A ++ B ++ C ++ D ++ E ++ F ++ G ++ H) ++ I by simp]
    exact rustSliceFrom_exact (A ++ B ++ C ++ D ++ E ++ F ++ G ++ H) I 46 (by simp [hA, hB, hC, hD, hE, hF, hG, hH])
  unfold parse_body
  rw [s0, s1, s2, s3, s4, s5, s6, s7]


theorem parse_body_wf (a fu tu am ts tb sb : Nat) (tt : TxType) (st : Status)
    (dl desc : List Nat)
    (ha : a < 2 ^ 64) (hfu : fu < 2 ^ 64) (htu : tu < 2 ^ 64)
    (ham : am < 2 ^ 64) (hts : ts < 2 ^ 64)
    (htb : TxType.try_from_byte tb = .ok tt)
    (hsb : Status.try_from_byte sb = .ok st)
    (hdl : dl.length = 4) (hdesc : utf8Valid desc = true) :
    parse_body (u64ToBeBytes a ++ [tb] ++ u64ToBeBytes fu ++ u64ToBeBytes tu ++
        u64ToBeBytes am ++ u64ToBeBytes ts ++ [sb] ++ dl ++ desc) =
      some (.ok { tx_id := a, tx_type := tt, from_user := fu, to_user := tu,
                  amount := am, timestamp := ts, status := st,
                  description := desc }) := by
  rw [parse_body_decomp (u64ToBeBytes a) [tb] (u64ToBeBytes fu) (u64ToBeBytes tu)
    (u64ToBeBytes am) (u64ToBeBytes ts) [sb] dl desc (length_u64ToBeBytes a) rfl
    (length_u64ToBeBytes fu) (length_u64ToBeBytes tu) (length_u64ToBeBytes am)
    (length_u64ToBeBytes ts) rfl hdl]
  simp [parseFields, Field.parseBin, try_u64_from_bytes_roundtrip, htb, hsb,
    stringFromUtf8, hdesc, Nat.mod_eq_of_lt ha, Nat.mod_eq_of_lt hfu,
    Nat.mod_eq_of_lt htu, Nat.mod_eq_of_lt ham, Nat.mod_eq_of_lt hts,
    Record.try_from, accStep]
  exact ⟨ha, hfu, htu, ham, hts⟩


theorem txtype_byte_roundtrip (t : TxType) :
    TxType.try_from_byte t.to_byte = .ok t := by
  cases t <;> rfl

theorem status_byte_roundtrip (s : Status) :
    Status.try_from_byte s.to_byte = .ok s := by
  cases s <;> rfl

/-- BIN round-trip: serializing a well-formed `Record` whose description
keeps the 46-byte-larger frame length inside 32 bits, then reading the
bytes back, produces exactly that record and then end-of-stream. -/
theorem bin_roundtrip_aux (r : Record) (h1 : r.wfNum)
    (h2 : utf8Valid r.description = true)
    (h3 : r.description.length + 46 < 2 ^ 32) :
    binProduceAll (RecordBytes.serialize r) = [some (.ok r)] := by
  obtain ⟨ha, hfu, htu, ham, hts⟩ := h1
  have hdleq : r.description.length % 2 ^ 32 = r.description.length :=
    Nat.mod_eq_of_lt (by omega)
  set B := u64ToBeBytes r.tx_id ++ [r.tx_type.to_byte] ++ u64ToBeBytes r.from_user ++
      u64ToBeBytes r.to_user ++ u64ToBeBytes r.amount ++ u64ToBeBytes r.timestamp ++
      [r.status.to_byte] ++ u32ToBeBytes (r.description.length % 2 ^ 32) ++
      r.description with hB
  have hser : RecordBytes.serialize r =
      asciiBytes "YPBN" ++ u32ToBeBytes ((46 + r.description.length) % 2 ^ 32) ++ B := by
    rw [hB]
    simp [RecordBytes.serialize, hdleq, List.append_assoc]
  have hblen : B.length = 46 + r.description.length := by
    rw [hB]
    simp [length_u64ToBeBytes, length_u32ToBeBytes]
    omega
  have hbe : beVal (u32ToBeBytes ((46 + r.description.length) % 2 ^ 32)) =
      46 + r.description.length := by
    rw [beVal_u32ToBeBytes]
    omega
  have hread : BinReader.read (RecordBytes.serialize r) = some (B, []) := by
    rw [hser,
      BinReader.read_frame (asciiBytes "YPBN")
        (u32ToBeBytes ((46 + r.description.length) % 2 ^ 32)) B rfl
        (length_u32ToBeBytes _) (by rw [hbe, ← hblen])]
    rw [hbe, ← hblen, List.take_length, List.drop_length]
  have hparse : parse_body B = some (.ok r) := by
    rw [hB]
    exact parse_body_wf r.tx_id r.from_user r.to_user r.amount r.timestamp
      r.tx_type.to_byte r.status.to_byte r.tx_type r.status
      (u32ToBeBytes (r.description.length % 2 ^ 32)) r.description
      ha hfu htu ham hts (txtype_byte_roundtrip r.tx_type)
      (status_byte_roundtrip r.status) (length_u32ToBeBytes _) h2
  have hprod : BinReader.produce_record (RecordBytes.serialize r) = .item (.ok r) [] := by
    unfold BinReader.produce_record
    simp only [hread, hparse]
  rw [binProduceAll_of_item hprod]
  rw [binProduceAll_of_eos]
  unfold BinReader.produce_record
  rw [BinReader.read_short [] (by simp)]

/-- Valid UTF-8: any run of ASCII bytes. -/
theorem utf8Valid_replicate (n c : Nat) (h : c < 128) :
    utf8Valid (List.replicate n c) = true := by
  induction n with
  | zero => rfl
  | succ m ih =>
    rw [List.replicate_succ, utf8Valid, utf8ValidAux, if_pos h]
    exact ih

/-- A record whose description length `2 ^ 32 - 45` is representable in 32
bits, yet overflows the 32-bit frame length `46 + len` that the BIN
serializer writes. -/
def overflowRecord : Record :=
  { tx_id := 1, tx_type := .DEPOSIT, from_user := 2, to_user := 3,
    amount := 1000, timestamp := 1000000000000, status := .SUCCESS,
    description := List.replicate 4294967251 97 }

/-- Serializing `overflowRecord` and reading the bytes back panics inside
`parse_body` (the wrapped frame length 1 yields a 1-byte body). -/
theorem bin_overflow_panics :
    binProduceAll (RecordBytes.serialize overflowRecord) = [none] := by
  have h1 : (List.replicate 4294967251 97).length % 2 ^ 32 = 4294967251 := by
    rw [List.length_replicate]
    norm_num
  have h2 : (46 + 4294967251) % 2 ^ 32 = 1 := by norm_num
  set B := u64ToBeBytes 1 ++ [TxType.DEPOSIT.to_byte] ++ u64ToBeBytes 2 ++
      u64ToBeBytes 3 ++ u64ToBeBytes 1000 ++ u64ToBeBytes 1000000000000 ++
      [Status.SUCCESS.to_byte] ++ u32ToBeBytes 4294967251 ++
      List.replicate 4294967251 97 with hB
  have hser : RecordBytes.serialize overflowRecord =
      asciiBytes "YPBN" ++ u32ToBeBytes 1 ++ B := by
    rw [hB]
    simp only [RecordBytes.serialize, overflowRecord, h1, h2, List.append_assoc]
  have hblen : B.length = 4294967297 := by
    rw [hB]
    simp only [List.length_append, length_u64ToBeBytes, length_u32ToBeBytes,
      List.length_replicate, List.length_cons, List.length_nil]
  have hbe : beVal (u32ToBeBytes 1) = 1 := by
    rw [beVal_u32ToBeBytes]
    norm_num
  have hread : BinReader.read (RecordBytes.serialize overflowRecord) =
      some (B.take 1, B.drop 1) := by
    rw [hser, BinReader.read_frame (asciiBytes "YPBN") (u32ToBeBytes 1) B rfl
      (length_u32ToBeBytes _) (by rw [hbe]; omega), hbe]
  have htake : B.take 1 = [0] := by
    rw [hB, show u64ToBeBytes 1 ++ [TxType.DEPOSIT.to_byte] ++ u64ToBeBytes 2 ++
        u64ToBeBytes 3 ++ u64ToBeBytes 1000 ++ u64ToBeBytes 1000000000000 ++
        [Status.SUCCESS.to_byte] ++ u32ToBeBytes 4294967251 ++
        List.replicate 4294967251 97 =
        u64ToBeBytes 1 ++ ([TxType.DEPOSIT.to_byte] ++ (u64ToBeBytes 2 ++
        (u64ToBeBytes 3 ++ (u64ToBeBytes 1000 ++ (u64ToBeBytes 1000000000000 ++
        ([Status.SUCCESS.to_byte] ++ (u32ToBeBytes 4294967251 ++
        List.replicate 4294967251 97))))))) by simp only [List.append_assoc]]
    rw [List.take_append_of_le_length (by rw [length_u64ToBeBytes]; omega)]
    rfl
  have hread2 : BinReader.read (RecordBytes.serialize overflowRecord) =
      some ([0], B.drop 1) := by
    rw [hread, htake]
  have hpar0 : parse_body [0] = none := parse_body_short [0] (by norm_num)
  have hprod : BinReader.produce_record (RecordBytes.serialize overflowRecord) = .panic := by
    rw [BinReader.produce_record, hread2]
    show (match parse_body [0] with
      | none => Produced.panic
      | some (.error e) =>
        Produced.item (.error ("failed to parse record: " ++ e)) (B.drop 1)
      | some (.ok r) => Produced.item (.ok r) (B.drop 1)) = Produced.panic
    rw [hpar0]
  exact binProduceAll_of_panic hprod

theorem parse_body_split (pre mid suf : List Nat)
    (hpre : pre.length = 42) (hmid : mid.length = 4) :
    parse_body (pre ++ mid ++ suf) =
      match parseFields
          [("TX_ID", pre.take 8), ("TX_TYPE", (pre.drop 8).take 1),
           ("FROM_USER_ID", (pre.drop 9).take 8), ("TO_USER_ID", (pre.drop 17).take 8),
           ("AMOUNT", (pre.drop 25).take 8), ("TIMESTAMP", (pre.drop 33).take 8),
           ("STATUS", (pre.drop 41).take 1), ("DESCRIPTION", suf)] with
      | none => none
      | some (.error e) => some (.error e)
      | some (.ok vs) =>
        some (match Record.try_from vs with
          | .ok r => .ok r
          | .error e => .error ("failed to parse record: " ++ e)) := by
  have hshape : pre ++ mid ++ suf = pre ++ (mid ++ suf) := by
    simp only [List.append_assoc]
  have s0 : rustSliceRange (pre ++ mid ++ suf) 0 8 = some (pre.take 8) := by
    rw [hshape]
    simpa using rustSliceRange_confined pre (mid ++ suf) 0 8 (by omega) (by omega)
  have s1 : rustSliceRange (pre ++ mid ++ suf) 8 9 = some ((pre.drop 8).take 1) := by
    rw [hshape]
    simpa using rustSliceRange_confined pre (mid ++ suf) 8 9 (by omega) (by omega)
  have s2 : rustSliceRange (pre ++ mid ++ suf) 9 17 = some ((pre.drop 9).take 8) := by
    rw [hshape]
    simpa using rustSliceRange_confined pre (mid ++ suf) 9 17 (by omega) (by omega)
  have s3 : rustSliceRange (pre ++ mid ++ suf) 17 25 = some ((pre.drop 17).take 8) := by
    rw [hshape]
    simpa using rustSliceRange_confined pre (mid ++ suf) 17 25 (by omega) (by omega)
  have s4 : rustSliceRange (pre ++ mid ++ suf) 25 33 = some ((pre.drop 25).take 8) := by
    rw [hshape]
    simpa using rustSliceRange_confined pre (mid ++ suf) 25 33 (by omega) (by omega)
  have s5 : rustSliceRange (pre ++ mid ++ suf) 33 41 = some ((pre.drop 33).take 8) := by
    rw [hshape]
    simpa using rustSliceRange_confined pre (mid ++ suf) 33 41 (by omega) (by omega)
  have s6 : rustSliceRange (pre ++ mid ++ suf) 41 42 = some ((pre.drop 41).take 1) := by
    rw [hshape]
    simpa using rustSliceRange_confined pre (mid ++ suf) 41 42 (by omega) (by omega)
  have s7 : rustSliceFrom (pre ++ mid ++ suf) 46 = some suf := by
    rw [show pre ++ mid ++ suf = (pre ++ mid) ++ suf by simp only [List.append_assoc]]
    exact rustSliceFrom_exact (pre ++ mid) suf 46
      (by simp only [List.length_append]; omega)
  unfold parse_body
  rw [s0, s1, s2, s3, s4, s5, s6, s7]

theorem parseBin_TX_ID_shape (s : List Nat) (v : FieldValue)
    (h : Field.parseBin "TX_ID" s = some (.ok v)) : ∃ n, v = .txId n := by
  unfold Field.parseBin at h
  rw [if_pos rfl] at h
  cases ht : try_u64_from_bytes s with
  | ok n =>
    simp only [ht] at h
    injection h with h1
    injection h1 with h2
    exact ⟨n, h2.symm⟩
  | error e =>
    simp only [ht] at h
    exact absurd h (by simp)

theorem parseBin_FROM_USER_shape (s : List Nat) (v : FieldValue)
    (h : Field.parseBin "FROM_USER_ID" s = some (.ok v)) : ∃ n, v = .fromUser n := by
  unfold Field.parseBin at h
  rw [if_neg (by decide)] at h
  rw [if_neg (by decide)] at h
  rw [if_neg (by decide)] at h
  rw [if_pos rfl] at h
  cases ht : try_u64_from_bytes s with
  | ok n =>
    simp only [ht] at h
    injection h with h1
    injection h1 with h2
    exact ⟨n, h2.symm⟩
  | error e =>
    simp only [ht] at h
    exact absurd h (by simp)

theorem parseBin_TO_USER_shape (s : List Nat) (v : FieldValue)
    (h : Field.parseBin "TO_USER_ID" s = some (.ok v)) : ∃ n, v = .toUser n := by
  unfold Field.parseBin at h
  rw [if_neg (by decide)] at h
  rw [if_neg (by decide)] at h
  rw [if_neg (by decide)] at h
  rw [if_neg (by decide)] at h
  rw [if_pos rfl] at h
  cases ht : try_u64_from_bytes s with
  | ok n =>
    simp only [ht] at h
    injection h with h1
    injection h1 with h2
    exact ⟨n, h2.symm⟩
  | error e =>
    simp only [ht] at h
    exact absurd h (by simp)

theorem parseBin_AMOUNT_shape (s : List Nat) (v : FieldValue)
    (h : Field.parseBin "AMOUNT" s = some (.ok v)) : ∃ n, v = .amount n := by
  unfold Field.parseBin at h
  rw [if_neg (by decide)] at h
  rw [if_neg (by decide)] at h
  rw [if_neg (by decide)] at h
  rw [if_neg (by decide)] at h
  rw [if_neg (by decide)] at h
  rw [if_pos rfl] at h
  cases ht : try_u64_from_bytes s with
  | ok n =>
    simp only [ht] at h
    injection h with h1
    injection h1 with h2
    exact ⟨n, h2.symm⟩
  | error e =>
    simp only [ht] at h
    exact absurd h (by simp)

theorem parseBin_TIMESTAMP_shape (s : List Nat) (v : FieldValue)
    (h : Field.parseBin "TIMESTAMP" s = some (.ok v)) : ∃ n, v = .timestamp n := by
  unfold Field.parseBin at h
  rw [if_neg (by decide)] at h
  rw [if_neg (by decide)] at h
  rw [if_neg (by decide)] at h
  rw [if_neg (by decide)] at h
  rw [if_neg (by decide)] at h
  rw [if_neg (by decide)] at h
  rw [if_pos rfl] at h
  cases ht : try_u64_from_bytes s with
  | ok n =>
    simp only [ht] at h
    injection h with h1
    injection h1 with h2
    exact ⟨n, h2.symm⟩
  | error e =>
    simp only [ht] at h
    exact absurd h (by simp)

theorem parseBin_TX_TYPE_shape (s : List Nat) (v : FieldValue)
    (h : Field.parseBin "TX_TYPE" s = some (.ok v)) : ∃ t, v = .txType t := by
  unfold Field.parseBin at h
  rw [if_neg (by decide)] at h
  rw [if_pos rfl] at h
  cases s with
  | nil => exact absurd h (by simp)
  | cons b rest =>
    cases ht : TxType.try_from_byte b with
    | ok t =>
      simp only [ht] at h
      injection h with h1
      injection h1 with h2
      exact ⟨t, h2.symm⟩
    | error e =>
      simp only [ht] at h
      exact absurd h (by simp)

theorem parseBin_STATUS_shape (s : List Nat) (v : FieldValue)
    (h : Field.parseBin "STATUS" s = some (.ok v)) : ∃ t, v = .status t := by
  unfold Field.parseBin at h
  rw [if_neg (by decide)] at h
  rw [if_neg (by decide)] at h
  rw [if_pos rfl] at h
  cases s with
  | nil => exact absurd h (by simp)
  | cons b rest =>
    cases ht : Status.try_from_byte b with
    | ok t =>
      simp only [ht] at h
      injection h with h1
      injection h1 with h2
      exact ⟨t, h2.symm⟩
    | error e =>
      simp only [ht] at h
      exact absurd h (by simp)

theorem parseBin_DESCRIPTION_eq (s : List Nat) (v : FieldValue)
    (h : Field.parseBin "DESCRIPTION" s = some (.ok v)) : v = .description s := by
  unfold Field.parseBin at h
  rw [if_neg (by decide)] at h
  rw [if_neg (by decide)] at h
  rw [if_neg (by decide)] at h
  rw [if_neg (by decide)] at h
  rw [if_neg (by decide)] at h
  rw [if_neg (by decide)] at h
  rw [if_neg (by decide)] at h
  rw [if_pos rfl] at h
  cases ht : stringFromUtf8 s with
  | ok w =>
    have hw : w = s := by
      unfold stringFromUtf8 at ht
      split at ht
      · injection ht with h1
        exact h1.symm
      · cases ht
    simp only [ht] at h
    injection h with h1
    injection h1 with h2
    rw [← h2, hw]
  | error e =>
    simp only [ht] at h
    exact absurd h (by simp)

theorem parseFields_desc (s0 s1 s2 s3 s4 s5 s6 s7 : List Nat) (vs : List FieldValue)
    (h : parseFields [("TX_ID", s0), ("TX_TYPE", s1), ("FROM_USER_ID", s2),
      ("TO_USER_ID", s3), ("AMOUNT", s4), ("TIMESTAMP", s5), ("STATUS", s6),
      ("DESCRIPTION", s7)] = some (.ok vs)) :
    ∃ n0 t n2 n3 n4 n5 st, vs =
      [.txId n0, .txType t, .fromUser n2, .toUser n3, .amount n4, .timestamp n5,
       .status st, .description s7] := by
  cases hp0 : Field.parseBin "TX_ID" s0 with
  | none =>
    simp only [parseFields, hp0] at h
    exact absurd h (by simp)
  | some r0 =>
    cases r0 with
    | error e =>
      simp only [parseFields, hp0] at h
      exact absurd h (by simp)
    | ok v0 =>
      cases hp1 : Field.parseBin "TX_TYPE" s1 with
      | none =>
        simp only [parseFields, hp0, hp1] at h
        exact absurd h (by simp)
      | some r1 =>
        cases r1 with
        | error e =>
          simp only [parseFields, hp0, hp1] at h
          exact absurd h (by simp)
        | ok v1 =>
          cases hp2 : Field.parseBin "FROM_USER_ID" s2 with
          | none =>
            simp only [parseFields, hp0, hp1, hp2] at h
            exact absurd h (by simp)
          | some r2 =>
            cases r2 with
            | error e =>
              simp only [parseFields, hp0, hp1, hp2] at h
              exact absurd h (by simp)
            | ok v2 =>
              cases hp3 : Field.parseBin "TO_USER_ID" s3 with
              | none =>
                simp only [parseFields, hp0, hp1, hp2, hp3] at h
                exact absurd h (by simp)
              | some r3 =>
                cases r3 with
                | error e =>
                  simp only [parseFields, hp0, hp1, hp2, hp3] at h
                  exact absurd h (by simp)
                | ok v3 =>
                  cases hp4 : Field.parseBin "AMOUNT" s4 with
                  | none =>
                    simp only [parseFields, hp0, hp1, hp2, hp3, hp4] at h
                    exact absurd h (by simp)
                  | some r4 =>
                    cases r4 with
                    | error e =>
                      simp only [parseFields, hp0, hp1, hp2, hp3, hp4] at h
                      exact absurd h (by simp)
                    | ok v4 =>
                      cases hp5 : Field.parseBin "TIMESTAMP" s5 with
                      | none =>
                        simp only [parseFields, hp0, hp1, hp2, hp3, hp4, hp5] at h
                        exact absurd h (by simp)
                      | some r5 =>
                        cases r5 with
                        | error e =>
                          simp only [parseFields, hp0, hp1, hp2, hp3, hp4, hp5] at h
                          exact absurd h (by simp)
                        | ok v5 =>
                          cases hp6 : Field.parseBin "STATUS" s6 with
                          | none =>
                            simp only [parseFields, hp0, hp1, hp2, hp3, hp4, hp5, hp6] at h
                            exact absurd h (by simp)
                          | some r6 =>
                            cases r6 with
                            | error e =>
                              simp only [parseFields, hp0, hp1, hp2, hp3, hp4, hp5, hp6] at h
                              exact absurd h (by simp)
                            | ok v6 =>
                              cases hp7 : Field.parseBin "DESCRIPTION" s7 with
                              | none =>
                                simp only [parseFields, hp0, hp1, hp2, hp3, hp4, hp5, hp6, hp7] at h
                                exact absurd h (by simp)
                              | some r7 =>
                                cases r7 with
                                | error e =>
                                  simp only [parseFields, hp0, hp1, hp2, hp3, hp4, hp5, hp6, hp7] at h
                                  exact absurd h (by simp)
                                | ok v7 =>
                                  simp only [parseFields, hp0, hp1, hp2, hp3, hp4, hp5, hp6, hp7] at h
                                  injection h with h1
                                  injection h1 with h2
                                  obtain ⟨n0, rfl⟩ := parseBin_TX_ID_shape s0 v0 hp0
                                  obtain ⟨t1, rfl⟩ := parseBin_TX_TYPE_shape s1 v1 hp1
                                  obtain ⟨n2, rfl⟩ := parseBin_FROM_USER_shape s2 v2 hp2
                                  obtain ⟨n3, rfl⟩ := parseBin_TO_USER_shape s3 v3 hp3
                                  obtain ⟨n4, rfl⟩ := parseBin_AMOUNT_shape s4 v4 hp4
                                  obtain ⟨n5, rfl⟩ := parseBin_TIMESTAMP_shape s5 v5 hp5
                                  obtain ⟨st6, rfl⟩ := parseBin_STATUS_shape s6 v6 hp6
                                  have hd := parseBin_DESCRIPTION_eq s7 v7 hp7
                                  subst hd
                                  exact ⟨n0, t1, n2, n3, n4, n5, st6, h2.symm⟩

theorem parse_body_ok_description (body : List Nat) (r : Record)
    (h : parse_body body = some (.ok r)) : r.description = body.drop 46 := by
  cases hs0 : rustSliceRange body 0 8 with
  | none =>
    simp only [parse_body, hs0] at h
    exact absurd h (by simp)
  | some s0 =>
    cases hs1 : rustSliceRange body 8 9 with
    | none =>
      simp only [parse_body, hs0, hs1] at h
      exact absurd h (by simp)
    | some s1 =>
      cases hs2 : rustSliceRange body 9 17 with
      | none =>
        simp only [parse_body, hs0, hs1, hs2] at h
        exact absurd h (by simp)
      | some s2 =>
        cases hs3 : rustSliceRange body 17 25 with
        | none =>
          simp only [parse_body, hs0, hs1, hs2, hs3] at h
          exact absurd h (by simp)
        | some s3 =>
          cases hs4 : rustSliceRange body 25 33 with
          | none =>
            simp only [parse_body, hs0, hs1, hs2, hs3, hs4] at h
            exact absurd h (by simp)
          | some s4 =>
            cases hs5 : rustSliceRange body 33 41 with
            | none =>
              simp only [parse_body, hs0, hs1, hs2, hs3, hs4, hs5] at h
              exact absurd h (by simp)
            | some s5 =>
              cases hs6 : rustSliceRange body 41 42 with
              | none =>
                simp only [parse_body, hs0, hs1, hs2, hs3, hs4, hs5, hs6] at h
                exact absurd h (by simp)
              | some s6 =>
                cases hs7 : rustSliceFrom body 46 with
                | none =>
                  simp only [parse_body, hs0, hs1, hs2, hs3, hs4, hs5, hs6, hs7] at h
                  exact absurd h (by simp)
                | some s7 =>
                  cases hpf : parseFields [("TX_ID", s0), ("TX_TYPE", s1), ("FROM_USER_ID", s2), ("TO_USER_ID", s3), ("AMOUNT", s4), ("TIMESTAMP", s5), ("STATUS", s6), ("DESCRIPTION", s7)] with
                  | none =>
                    simp only [parse_body, hs0, hs1, hs2, hs3, hs4, hs5, hs6, hs7, hpf] at h
                    exact absurd h (by simp)
                  | some res =>
                    cases res with
                    | error e =>
                      simp only [parse_body, hs0, hs1, hs2, hs3, hs4, hs5, hs6, hs7, hpf] at h
                      exact absurd h (by simp)
                    | ok vs =>
                      simp only [parse_body, hs0, hs1, hs2, hs3, hs4, hs5, hs6, hs7, hpf] at h
                      obtain ⟨n0, t1, n2, n3, n4, n5, st6, rfl⟩ := parseFields_desc _ _ _ _ _ _ _ _ _ hpf
                      have hdesc : s7 = body.drop 46 := by
                        unfold rustSliceFrom at hs7
                        split at hs7
                        · injection hs7 with h1
                          exact h1.symm
                        · cases hs7
                      simp only [Record.try_from, List.foldl, accStep] at h
                      injection h with h1
                      injection h1 with h2
                      rw [← h2]
                      exact hdesc


/-! ## Record assembly characterization (`Record::try_from`) -/

/-- Extract the payload of a `FieldValue.txId`. -/
def projTxId : FieldValue → Option (Nat)
  | .txId v => some v
  | _ => none

/-- The last `txId` occurrence in a field-value sequence. -/
def lastTxId (l : List FieldValue) : Option (Nat) :=
  (l.filterMap projTxId).getLast?

theorem lastTxId_eq (l : List FieldValue) :
    lastTxId l = (l.reverse.filterMap projTxId).head? := by
  unfold lastTxId
  rw [← List.head?_reverse]
  congr 1
  exact (List.filterMap_reverse projTxId l).symm

theorem foldl_accStep_tx_id (l : List FieldValue) (a : RecordAcc) :
    (List.foldl accStep a l).tx_id =
      ((l.reverse.filterMap projTxId).head?).or a.tx_id := by
  induction l generalizing a with
  | nil => simp
  | cons v t ih =>
    rw [List.foldl_cons, ih, List.reverse_cons, List.filterMap_append,
      List.head?_append, Option.or_assoc]
    congr 1
    cases v <;> simp [projTxId, accStep]

theorem acc_tx_id_eq (l : List FieldValue) :
    (List.foldl accStep {} l).tx_id = lastTxId l := by
  rw [foldl_accStep_tx_id, lastTxId_eq]
  exact Option.or_none

/-- Extract the payload of a `FieldValue.txType`. -/
def projTxType : FieldValue → Option (TxType)
  | .txType v => some v
  | _ => none

/-- The last `txType` occurrence in a field-value sequence. -/
def lastTxType (l : List FieldValue) : Option (TxType) :=
  (l.filterMap projTxType).getLast?

theorem lastTxType_eq (l : List FieldValue) :
    lastTxType l = (l.reverse.filterMap projTxType).head? := by
  unfold lastTxType
  rw [← List.head?_reverse]
  congr 1
  exact (List.filterMap_reverse projTxType l).symm

theorem foldl_accStep_tx_type (l : List FieldValue) (a : RecordAcc) :
    (List.foldl accStep a l).tx_type =
      ((l.reverse.filterMap projTxType).head?).or a.tx_type := by
  induction l generalizing a with
  | nil => simp
  | cons v t ih =>
    rw [List.foldl_cons, ih, List.reverse_cons, List.filterMap_append,
      List.head?_append, Option.or_assoc]
    congr 1
    cases v <;> simp [projTxType, accStep]

theorem acc_tx_type_eq (l : List FieldValue) :
    (List.foldl accStep {} l).tx_type = lastTxType l := by
  rw [foldl_accStep_tx_type, lastTxType_eq]
  exact Option.or_none

/-- Extract the payload of a `FieldValue.status`. -/
def projStatus : FieldValue → Option (Status)
  | .status v => some v
  | _ => none

/-- The last `status` occurrence in a field-value sequence. -/
def lastStatus (l : List FieldValue) : Option (Status) :=
  (l.filterMap projStatus).getLast?

theorem lastStatus_eq (l : List FieldValue) :
    lastStatus l = (l.reverse.filterMap projStatus).head? := by
  unfold lastStatus
  rw [← List.head?_reverse]
  congr 1
  exact (List.filterMap_reverse projStatus l).symm

theorem foldl_accStep_status (l : List FieldValue) (a : RecordAcc) :
    (List.foldl accStep a l).status =
      ((l.reverse.filterMap projStatus).head?).or a.status := by
  induction l generalizing a with
  | nil => simp
  | cons v t ih =>
    rw [List.foldl_cons, ih, List.reverse_cons, List.filterMap_append,
      List.head?_append, Option.or_assoc]
    congr 1
    cases v <;> simp [projStatus, accStep]

theorem acc_status_eq (l : List FieldValue) :
    (List.foldl accStep {} l).status = lastStatus l := by
  rw [foldl_accStep_status, lastStatus_eq]
  exact Option.or_none

/-- Extract the payload of a `FieldValue.fromUser`. -/
def projFromUser : FieldValue → Option (Nat)
  | .fromUser v => some v
  | _ => none

/-- The last `fromUser` occurrence in a field-value sequence. -/
def lastFromUser (l : List FieldValue) : Option (Nat) :=
  (l.filterMap projFromUser).getLast?

theorem lastFromUser_eq (l : List FieldValue) :
    lastFromUser l = (l.reverse.filterMap projFromUser).head? := by
  unfold lastFromUser
  rw [← List.head?_reverse]
  congr 1
  exact (List.filterMap_reverse projFromUser l).symm

theorem foldl_accStep_from_user (l : List FieldValue) (a : RecordAcc) :
    (List.foldl accStep a l).from_user =
      ((l.reverse.filterMap projFromUser).head?).or a.from_user := by
  induction l generalizing a with
  | nil => simp
  | cons v t ih =>
    rw [List.foldl_cons, ih, List.reverse_cons, List.filterMap_append,
      List.head?_append, Option.or_assoc]
    congr 1
    cases v <;> simp [projFromUser, accStep]

theorem acc_from_user_eq (l : List FieldValue) :
    (List.foldl accStep {} l).from_user = lastFromUser l := by
  rw [foldl_accStep_from_user, lastFromUser_eq]
  exact Option.or_none

/-- Extract the payload of a `FieldValue.toUser`. -/
def projToUser : FieldValue → Option (Nat)
  | .toUser v => some v
  | _ => none

/-- The last `toUser` occurrence in a field-value sequence. -/
def lastToUser (l : List FieldValue) : Option (Nat) :=
  (l.filterMap projToUser).getLast?

theorem lastToUser_eq (l : List FieldValue) :
    lastToUser l = (l.reverse.filterMap projToUser).head? := by
  unfold lastToUser
  rw [← List.head?_reverse]
  congr 1
  exact (List.filterMap_reverse projToUser l).symm

theorem foldl_accStep_to_user (l : List FieldValue) (a : RecordAcc) :
    (List.foldl accStep a l).to_user =
      ((l.reverse.filterMap projToUser).head?).or a.to_user := by
  induction l generalizing a with
  | nil => simp
  | cons v t ih =>
    rw [List.foldl_cons, ih, List.reverse_cons, List.filterMap_append,
      List.head?_append, Option.or_assoc]
    congr 1
    cases v <;> simp [projToUser, accStep]

theorem acc_to_user_eq (l : List FieldValue) :
    (List.foldl accStep {} l).to_user = lastToUser l := by
  rw [foldl_accStep_to_user, lastToUser_eq]
  exact Option.or_none

/-- Extract the payload of a `FieldValue.timestamp`. -/
def projTimestamp : FieldValue → Option (Nat)
  | .timestamp v => some v
  | _ => none

/-- The last `timestamp` occurrence in a field-value sequence. -/
def lastTimestamp (l : List FieldValue) : Option (Nat) :=
  (l.filterMap projTimestamp).getLast?

theorem lastTimestamp_eq (l : List FieldValue) :
    lastTimestamp l = (l.reverse.filterMap projTimestamp).head? := by
  unfold lastTimestamp
  rw [← List.head?_reverse]
  congr 1
  exact (List.filterMap_reverse projTimestamp l).symm

theorem foldl_accStep_timestamp (l : List FieldValue) (a : RecordAcc) :
    (List.foldl accStep a l).timestamp =
      ((l.reverse.filterMap projTimestamp).head?).or a.timestamp := by
  induction l generalizing a with
  | nil => simp
  | cons v t ih =>
    rw [List.foldl_cons, ih, List.reverse_cons, List.filterMap_append,
      List.head?_append, Option.or_assoc]
    congr 1
    cases v <;> simp [projTimestamp, accStep]

theorem acc_timestamp_eq (l : List FieldValue) :
    (List.foldl accStep {} l).timestamp = lastTimestamp l := by
  rw [foldl_accStep_timestamp, lastTimestamp_eq]
  exact Option.or_none

/-- Extract the payload of a `FieldValue.amount`. -/
def projAmount : FieldValue → Option (Nat)
  | .amount v => some v
  | _ => none

/-- The last `amount` occurrence in a field-value sequence. -/
def lastAmount (l : List FieldValue) : Option (Nat) :=
  (l.filterMap projAmount).getLast?

theorem lastAmount_eq (l : List FieldValue) :
    lastAmount l = (l.reverse.filterMap projAmount).head? := by
  unfold lastAmount
  rw [← List.head?_reverse]
  congr 1
  exact (List.filterMap_reverse projAmount l).symm

theorem foldl_accStep_amount (l : List FieldValue) (a : RecordAcc) :
    (List.foldl accStep a l).amount =
      ((l.reverse.filterMap projAmount).head?).or a.amount := by
  induction l generalizing a with
  | nil => simp
  | cons v t ih =>
    rw [List.foldl_cons, ih, List.reverse_cons, List.filterMap_append,
      List.head?_append, Option.or_assoc]
    congr 1
    cases v <;> simp [projAmount, accStep]

theorem acc_amount_eq (l : List FieldValue) :
    (List.foldl accStep {} l).amount = lastAmount l := by
  rw [foldl_accStep_amount, lastAmount_eq]
  exact Option.or_none

/-- Extract the payload of a `FieldValue.description`. -/
def projDescription : FieldValue → Option (List Nat)
  | .description v => some v
  | _ => none

/-- The last `description` occurrence in a field-value sequence. -/
def lastDescription (l : List FieldValue) : Option (List Nat) :=
  (l.filterMap projDescription).getLast?

theorem lastDescription_eq (l : List FieldValue) :
    lastDescription l = (l.reverse.filterMap projDescription).head? := by
  unfold lastDescription
  rw [← List.head?_reverse]
  congr 1
  exact (List.filterMap_reverse projDescription l).symm

theorem foldl_accStep_description (l : List FieldValue) (a : RecordAcc) :
    (List.foldl accStep a l).description =
      ((l.reverse.filterMap projDescription).head?).or a.description := by
  induction l generalizing a with
  | nil => simp
  | cons v t ih =>
    rw [List.foldl_cons, ih, List.reverse_cons, List.filterMap_append,
      List.head?_append, Option.or_assoc]
    congr 1
    cases v <;> simp [projDescription, accStep]

theorem acc_description_eq (l : List FieldValue) :
    (List.foldl accStep {} l).description = lastDescription l := by
  rw [foldl_accStep_description, lastDescription_eq]
  exact Option.or_none

/-- The canonical field order in which `Record::try_from` reports the
first missing field. -/
def firstMissing (l : List FieldValue) : Option String :=
  if lastTxId l = none then some "tx_id"
  else if lastTxType l = none then some "tx_type"
  else if lastFromUser l = none then some "from_user"
  else if lastToUser l = none then some "to_user"
  else if lastAmount l = none then some "amount"
  else if lastTimestamp l = none then some "timestamp"
  else if lastStatus l = none then some "status"
  else if lastDescription l = none then some "description"
  else none

/-- `Record::try_from`, characterized: it fails naming the first missing
attribute in canonical order, and otherwise builds the record out of the
last occurrence of each attribute. -/
theorem Record.try_from_eq (l : List FieldValue) :
    Record.try_from l =
      match firstMissing l with
      | some n => .error ("missing field " ++ n)
      | none =>
        .ok { tx_id := (lastTxId l).getD 0, tx_type := (lastTxType l).getD .DEPOSIT,
              from_user := (lastFromUser l).getD 0, to_user := (lastToUser l).getD 0,
              amount := (lastAmount l).getD 0, timestamp := (lastTimestamp l).getD 0,
              status := (lastStatus l).getD .PENDING,
              description := (lastDescription l).getD [] } := by
  unfold Record.try_from firstMissing
  simp only [acc_tx_id_eq, acc_tx_type_eq, acc_from_user_eq, acc_to_user_eq,
    acc_amount_eq, acc_timestamp_eq, acc_status_eq, acc_description_eq]
  cases h0 : lastTxId l with
  | none => simp [h0]
  | some v0 =>
    cases h1 : lastTxType l with
    | none => simp [h0, h1]
    | some v1 =>
      cases h2 : lastFromUser l with
      | none => simp [h0, h1, h2]
      | some v2 =>
        cases h3 : lastToUser l with
        | none => simp [h0, h1, h2, h3]
        | some v3 =>
          cases h4 : lastAmount l with
          | none => simp [h0, h1, h2, h3, h4]
          | some v4 =>
            cases h5 : lastTimestamp l with
            | none => simp [h0, h1, h2, h3, h4, h5]
            | some v5 =>
              cases h6 : lastStatus l with
              | none => simp [h0, h1, h2, h3, h4, h5, h6]
              | some v6 =>
                cases h7 : lastDescription l with
                | none => simp [h0, h1, h2, h3, h4, h5, h6, h7]
                | some v7 =>
                  simp [h0, h1, h2, h3, h4, h5, h6, h7]

/-! ## TXT field-line split characterization -/

theorem findIdx?_colon_go (name : List Nat) :
    ∀ (tail : List Nat) (i : Nat), (∀ b ∈ name, b ≠ 58) →
    List.findIdx? (fun b => b = 58) (name ++ 58 :: tail) i = some (i + name.length) := by
  induction name with
  | nil =>
    intro tail i h
    simp [List.findIdx?]
  | cons a t ih =>
    intro tail i h
    have ha : a ≠ 58 := h a (by simp)
    rw [List.cons_append, List.findIdx?_cons, if_neg (by simp [ha])]
    rw [ih tail (i + 1) (fun b hb => h b (by simp [hb]))]
    congr 1
    simp only [List.length_cons]
    omega

theorem findIdx?_colon (name tail : List Nat) (h : ∀ b ∈ name, b ≠ 58) :
    (name ++ 58 :: tail).findIdx? (fun b => b = 58) = some name.length := by
  have := findIdx?_colon_go name tail 0 h
  simpa using this

theorem dataSplit_eq (name tail : List Nat) (c : Nat) (h : ∀ b ∈ name, b ≠ 58)
    (hb : tail = [] ∨ ¬ (128 ≤ tail.getD 0 0 ∧ tail.getD 0 0 < 192)) :
    dataSplit (name ++ 58 :: c :: tail) = some (.ok (name, tail)) := by
  unfold dataSplit
  rw [findIdx?_colon name (c :: tail) h]
  have hdrop : (name ++ 58 :: c :: tail).drop name.length = 58 :: c :: tail :=
    List.drop_left name (58 :: c :: tail)
  have htake : (name ++ 58 :: c :: tail).take name.length = name :=
    List.take_left name (58 :: c :: tail)
  simp only [hdrop, htake]
  rw [if_pos]
  · simp
  · constructor
    · simp only [List.length_cons]
      omega
    · rcases hb with hb | hb
      · subst hb
        left
        rfl
      · right
        simpa using hb

/-! ## Head-tag independence of the BIN reader -/

/-- Two byte streams that are identical except for the first 4 bytes (the
magic-tag slot) of each frame head.  `short` relates trailing fragments cut
inside a head, `shortBody` fragments cut inside a declared body, and
`frame` one complete frame followed by related remainders. -/
inductive TagDiff : List Nat → List Nat → Prop where
  | short (a b : List Nat) (ha : a.length < 8) (hb : b.length < 8) : TagDiff a b
  | shortBody (t1 t2 l p1 p2 : List Nat) (ht1 : t1.length = 4) (ht2 : t2.length = 4)
      (hl : l.length = 4) (hp1 : p1.length < beVal l) (hp2 : p2.length < beVal l) :
      TagDiff (t1 ++ l ++ p1) (t2 ++ l ++ p2)
  | frame (t1 t2 l body r1 r2 : List Nat) (ht1 : t1.length = 4) (ht2 : t2.length = 4)
      (hl : l.length = 4) (hbody : body.length = beVal l) (htail : TagDiff r1 r2) :
      TagDiff (t1 ++ l ++ (body ++ r1)) (t2 ++ l ++ (body ++ r2))

theorem tagDiff_produceAll (a b : List Nat) (h : TagDiff a b) :
    binProduceAll a = binProduceAll b := by
  induction h with
  | short a b ha hb =>
    rw [binProduceAll_of_eos, binProduceAll_of_eos]
    · unfold BinReader.produce_record
      rw [BinReader.read_short b hb]
    · unfold BinReader.produce_record
      rw [BinReader.read_short a ha]
  | shortBody t1 t2 l p1 p2 ht1 ht2 hl hp1 hp2 =>
    rw [binProduceAll_of_eos, binProduceAll_of_eos]
    · unfold BinReader.produce_record
      rw [BinReader.read_frame_short t2 l p2 ht2 hl hp2]
    · unfold BinReader.produce_record
      rw [BinReader.read_frame_short t1 l p1 ht1 hl hp1]
  | frame t1 t2 l body r1 r2 ht1 ht2 hl hbody htail ih =>
    have hread1 : BinReader.read (t1 ++ l ++ (body ++ r1)) = some (body, r1) := by
      rw [BinReader.read_frame t1 l (body ++ r1) ht1 hl
        (by rw [← hbody]; simp only [List.length_append]; omega)]
      rw [← hbody, List.take_left, List.drop_left]
    have hread2 : BinReader.read (t2 ++ l ++ (body ++ r2)) = some (body, r2) := by
      rw [BinReader.read_frame t2 l (body ++ r2) ht2 hl
        (by rw [← hbody]; simp only [List.length_append]; omega)]
      rw [← hbody, List.take_left, List.drop_left]
    cases hp : parse_body body with
    | none =>
      rw [binProduceAll_of_panic
          (by unfold BinReader.produce_record; simp only [hread1, hp]),
        binProduceAll_of_panic
          (by unfold BinReader.produce_record; simp only [hread2, hp])]
    | some res =>
      cases res with
      | error e =>
        rw [binProduceAll_of_item
            (show BinReader.produce_record (t1 ++ l ++ (body ++ r1)) =
              .item (.error ("failed to parse record: " ++ e)) r1 by
              unfold BinReader.produce_record
              simp only [hread1, hp]),
          binProduceAll_of_item
            (show BinReader.produce_record (t2 ++ l ++ (body ++ r2)) =
              .item (.error ("failed to parse record: " ++ e)) r2 by
              unfold BinReader.produce_record
              simp only [hread2, hp]),
          ih]
      | ok rr =>
        rw [binProduceAll_of_item
            (show BinReader.produce_record (t1 ++ l ++ (body ++ r1)) =
              .item (.ok rr) r1 by
              unfold BinReader.produce_record
              simp only [hread1, hp]),
          binProduceAll_of_item
            (show BinReader.produce_record (t2 ++ l ++ (body ++ r2)) =
              .item (.ok rr) r2 by
              unfold BinReader.produce_record
              simp only [hread2, hp]),
          ih]

/-! ## Concrete fixtures -/

/-- The spec's concrete BIN scenario record. -/
def specRecord : Record :=
  { tx_id := 1, tx_type := .DEPOSIT, from_user := 2, to_user := 3,
    amount := 1000, timestamp := 1000000000000, status := .SUCCESS,
    description := asciiBytes "Description 1" }

/-- Eight TXT field lines forming one complete record. -/
def txtRecordLines : List (List Nat) :=
  [asciiBytes "TX_ID: 7", asciiBytes "TX_TYPE: TRANSFER",
   asciiBytes "FROM_USER_ID: 1", asciiBytes "TO_USER_ID: 2",
   asciiBytes "AMOUNT: 50", asciiBytes "TIMESTAMP: 123",
   asciiBytes "STATUS: PENDING", asciiBytes "DESCRIPTION: hello"]

/-- The record `txtRecordLines` parses to. -/
def txtRecord : Record :=
  { tx_id := 7, tx_type := .TRANSFER, from_user := 1, to_user := 2,
    amount := 50, timestamp := 123, status := .PENDING,
    description := asciiBytes "hello" }

/-- A blank line hit before any field line — even after comment lines —
makes the TXT reader signal end-of-stream, whatever follows. -/
theorem txt_blank_eos (pre : List (List Nat)) (rest : List (List Nat))
    (h : ∀ l ∈ pre, l.head? = some 35) :
    TxtReader.produce_record (pre ++ [] :: rest) = .eos := by
  induction pre with
  | nil => simp [TxtReader.produce_record, txtProduceAux]
  | cons x xs ih =>
    unfold TxtReader.produce_record at *
    rw [List.cons_append]
    unfold txtProduceAux
    rw [if_pos (h x (by simp))]
    exact ih (fun l hl => h l (by simp [hl]))

/-- Two consecutive blank lines silently truncate the TXT stream: the
second record is never produced. -/
theorem txt_double_blank :
    txtProduceAll (txtRecordLines ++ [] :: [] :: txtRecordLines) =
      [some (.ok txtRecord)] := by
  rw [txtProduceAll_of_item
    (show TxtReader.produce_record (txtRecordLines ++ [] :: [] :: txtRecordLines) =
      .item (.ok txtRecord) ([] :: txtRecordLines) by decide)]
  rw [txtProduceAll_of_eos
    (show TxtReader.produce_record ([] :: txtRecordLines) = .eos by decide)]

/-! ## Claims -/

/-- C1 (counterexample): the claim as stated fails for a record whose
description length `2 ^ 32 - 45` is representable in 32 bits: the
serializer's 32-bit frame length `46 + len` wraps to 1, so reading the
bytes back panics inside `parse_body` instead of producing the record. -/
theorem c1_counterexample :
    binProduceAll (RecordBytes.serialize overflowRecord) = [none] ∧
    binProduceAll (RecordBytes.serialize overflowRecord) ≠
      [some (.ok overflowRecord)] := by
  refine ⟨bin_overflow_panics, ?_⟩
  rw [bin_overflow_panics]
  simp

/-- C1 (amended): for every well-formed `Record` whose description keeps
`46 + len` representable in 32 bits, serializing with the BIN serializer
and reading the bytes back produces exactly one record equal by value to
the original, followed by end-of-stream. -/
theorem c1_bin_roundtrip (r : Record) (h1 : r.wfNum)
    (h2 : utf8Valid r.description = true)
    (h3 : r.description.length + 46 < 2 ^ 32) :
    binProduceAll (RecordBytes.serialize r) = [some (.ok r)] :=
  bin_roundtrip_aux r h1 h2 h3

/-- C1 witness: the round-trip at the spec's concrete scenario record. -/
theorem c1_bin_roundtrip_witness :
    specRecord.wfNum ∧ utf8Valid specRecord.description = true ∧
      specRecord.description.length + 46 < 2 ^ 32 ∧
      binProduceAll (RecordBytes.serialize specRecord) = [some (.ok specRecord)] :=
  ⟨⟨by decide, by decide, by decide, by decide, by decide⟩, by decide,
    by decide,
    c1_bin_roundtrip specRecord
      ⟨by decide, by decide, by decide, by decide, by decide⟩
      (by decide) (by decide)⟩

/-- C2 (counterexample): the claim as stated is false — truncating one
byte from the body of a serialized record makes the BIN reader report a
clean end-of-stream with no records and no error, not a read error. -/
theorem c2_counterexample :
    binProduceAll ((RecordBytes.serialize specRecord).dropLast) = [] :=
  binProduceAll_of_eos (by decide)

/-- C2 (amended): a short or partial read mid-frame — fewer than 8 bytes
of head, or a complete head followed by fewer body bytes than the declared
length — makes `BinReader::read` return the end-of-stream signal (`none`),
never a read error; for in-memory sources no read error is reachable. -/
theorem c2_truncation_eos :
    (∀ bs : List Nat, bs.length < 8 → BinReader.read bs = none) ∧
    (∀ t l part : List Nat, t.length = 4 → l.length = 4 →
      part.length < beVal l → BinReader.read (t ++ l ++ part) = none) :=
  ⟨fun bs h => BinReader.read_short bs h,
   fun t l p ht hl hp => BinReader.read_frame_short t l p ht hl hp⟩

/-- C2 witness: a 3-byte stream and a frame declaring a 5-byte body with
only 3 body bytes both end the stream cleanly. -/
theorem c2_truncation_eos_witness :
    BinReader.read [1, 2, 3] = none ∧
    BinReader.read ([89, 80, 66, 78] ++ [0, 0, 0, 5] ++ [1, 2, 3]) = none :=
  ⟨c2_truncation_eos.1 [1, 2, 3] (by norm_num),
   c2_truncation_eos.2 [89, 80, 66, 78] [0, 0, 0, 5] [1, 2, 3]
     (by norm_num) (by norm_num) (by decide)⟩

/-- C3: the claim is right and the code is wrong — for every BIN frame
body shorter than the 46-byte fixed part, `parse_body` panics on an
out-of-bounds slice (`none`) instead of returning the record parse error
the spec promises. -/
theorem c3_short_body_panics (body : List Nat) (h : body.length < 46) :
    parse_body body = none :=
  parse_body_short body h

/-- C3 witness: the empty body (a frame declaring body length 0) panics. -/
theorem c3_short_body_panics_witness :
    ([] : List Nat).length < 46 ∧ parse_body [] = none :=
  ⟨by norm_num, c3_short_body_panics [] (by norm_num)⟩

/-- C4: `Record::try_from` fails naming the first missing attribute in the
canonical order tx_id, tx_type, from_user, to_user, amount, timestamp,
status, description when some attribute never occurs, and otherwise
succeeds with each slot holding the last occurrence of its attribute. -/
theorem c4_record_assembly (l : List FieldValue) :
    Record.try_from l =
      match firstMissing l with
      | some n => .error ("missing field " ++ n)
      | none =>
        .ok { tx_id := (lastTxId l).getD 0, tx_type := (lastTxType l).getD .DEPOSIT,
              from_user := (lastFromUser l).getD 0, to_user := (lastToUser l).getD 0,
              amount := (lastAmount l).getD 0, timestamp := (lastTimestamp l).getD 0,
              status := (lastStatus l).getD .PENDING,
              description := (lastDescription l).getD [] } :=
  Record.try_from_eq l

/-- C5 (counterexample): the claim as stated is false — the field-line
parser does not trim at most one leading space; it always drops the byte
after the first ':' whether or not it is a space, so `TX_ID:5` yields the
raw value `""` (a tx_id parse error), not `"5"`. -/
theorem c5_counterexample :
    FieldValue.try_from_data (asciiBytes "TX_ID:5") =
      some (.error "failed to parse tx_id") ∧
    FieldValue.try_from_data (asciiBytes "TX_ID: 5") =
      some (.ok (.txId 5)) := by
  constructor
  · decide
  · decide

/-- C5 (amended): the field-line parser splits on the first ':' only and
then removes exactly one byte after it, space or not: for every line
`NAME : c tail` with no ':' in the name (and byte 2 of the value on a
character boundary), the name is everything before the ':' and the raw
value is `tail`, whatever the dropped byte `c` was; a line whose ':' is
its last byte panics. -/
theorem c5_split_drops_one (name tail : List Nat) (c : Nat)
    (h : ∀ b ∈ name, b ≠ 58)
    (hb : tail = [] ∨ ¬ (128 ≤ tail.getD 0 0 ∧ tail.getD 0 0 < 192)) :
    dataSplit (name ++ 58 :: c :: tail) = some (.ok (name, tail)) ∧
    FieldValue.try_from_data (name ++ 58 :: c :: tail) =
      some (Field.parseStr name tail) := by
  refine ⟨dataSplit_eq name tail c h hb, ?_⟩
  unfold FieldValue.try_from_data
  rw [dataSplit_eq name tail c h hb]

/-- C5 witness: `TX_ID: 5` splits into name `TX_ID` and raw value `5`. -/
theorem c5_split_drops_one_witness :
    dataSplit (asciiBytes "TX_ID" ++ 58 :: 32 :: asciiBytes "5") =
      some (.ok (asciiBytes "TX_ID", asciiBytes "5")) ∧
    FieldValue.try_from_data (asciiBytes "TX_ID" ++ 58 :: 32 :: asciiBytes "5") =
      some (Field.parseStr (asciiBytes "TX_ID") (asciiBytes "5")) :=
  c5_split_drops_one (asciiBytes "TX_ID") (asciiBytes "5") 32
    (by decide) (by decide)

/-- C6: the claim is right and the code is wrong — the source's
`From<Status> for &str` renders `Status::SUCCESS` as the string `STATUS`,
which the parse direction rejects, while the `Display` path and every
`TxType` path round-trip correctly. -/
theorem c6_status_mapping_bug :
    Status.to_str .SUCCESS = asciiBytes "STATUS" ∧
    Status.try_from_str (Status.to_str .SUCCESS) = .error "unknown status" ∧
    Status.display .SUCCESS = asciiBytes "SUCCESS" ∧
    (∀ s : Status, Status.try_from_str (Status.display s) = .ok s) ∧
    (∀ t : TxType, TxType.try_from_str (TxType.to_str t) = .ok t ∧
      TxType.try_from_str (TxType.display t) = .ok t) := by
  refine ⟨by decide, by decide, by decide, ?_, ?_⟩
  · intro s
    cases s <;> decide
  · intro t
    cases t <;> exact ⟨by decide, by decide⟩

/-- C7: the BIN reader never reads the 4-byte magic-tag slot — any two
streams that differ only in the first 4 bytes of each frame head produce
identical result streams. -/
theorem c7_reader_ignores_tag (a b : List Nat) (h : TagDiff a b) :
    binProduceAll a = binProduceAll b :=
  tagDiff_produceAll a b h

/-- C7 witness: replacing the `YPBN` tag of a frame by `XXXX` leaves the
produced stream unchanged. -/
theorem c7_reader_ignores_tag_witness :
    binProduceAll (asciiBytes "YPBN" ++ [0, 0, 0, 2] ++ ([7, 7] ++ [])) =
      binProduceAll (asciiBytes "XXXX" ++ [0, 0, 0, 2] ++ ([7, 7] ++ [])) :=
  c7_reader_ignores_tag _ _
    (TagDiff.frame (asciiBytes "YPBN") (asciiBytes "XXXX") [0, 0, 0, 2] [7, 7] [] []
      (by decide) (by decide) (by decide) (by decide)
      (TagDiff.short [] [] (by decide) (by decide)))

/-- C8: each builder maps exactly the identifiers `csv`, `txt`, `bin` to
the corresponding codec and rejects every other format string with a
construction-time error. -/
theorem c8_builder_dispatch :
    (∀ s : String, s ≠ "csv" → s ≠ "txt" → s ≠ "bin" →
      build_reader s = .error ("given an unsupported format " ++ s) ∧
      build_serializer s = .error ("given an unsupported format " ++ s) ∧
      build_writer s = .error ("given an unsupported format " ++ s)) ∧
    build_reader "csv" = .ok .csv ∧ build_reader "txt" = .ok .txt ∧
    build_reader "bin" = .ok .bin ∧
    build_serializer "csv" = .ok .csv ∧ build_serializer "txt" = .ok .txt ∧
    build_serializer "bin" = .ok .bin ∧
    build_writer "csv" = .ok .csv ∧ build_writer "txt" = .ok .txt ∧
    build_writer "bin" = .ok .bin := by
  refine ⟨?_, by decide, by decide, by decide, by decide, by decide, by decide,
    by decide, by decide, by decide⟩
  intro s h1 h2 h3
  refine ⟨?_, ?_, ?_⟩
  · unfold build_reader
    rw [if_neg h1, if_neg h2, if_neg h3]
  · unfold build_serializer
    rw [if_neg h1, if_neg h3, if_neg h2]
  · unfold build_writer
    rw [if_neg h1, if_neg h2, if_neg h3]

/-- C8 witness: the format string `xml` is rejected by all three builders. -/
theorem c8_builder_dispatch_witness :
    build_reader "xml" = .error ("given an unsupported format " ++ "xml") ∧
    build_serializer "xml" = .error ("given an unsupported format " ++ "xml") ∧
    build_writer "xml" = .error ("given an unsupported format " ++ "xml") :=
  c8_builder_dispatch.1 "xml" (by decide) (by decide) (by decide)

/-- C9: `parse_body` never reads the stored description-length field at
offsets 42..46 — two bodies differing only there parse identically — and
an accepted parse always takes the description as all bytes from offset 46
to the end of the body. -/
theorem c9_desc_len_ignored :
    (∀ pre m1 m2 suf : List Nat, pre.length = 42 → m1.length = 4 →
      m2.length = 4 →
      parse_body (pre ++ m1 ++ suf) = parse_body (pre ++ m2 ++ suf)) ∧
    (∀ (body : List Nat) (r : Record), parse_body body = some (.ok r) →
      r.description = body.drop 46) := by
  refine ⟨?_, parse_body_ok_description⟩
  intro pre m1 m2 suf hp h1 h2
  rw [parse_body_split pre m1 suf hp h1, parse_body_split pre m2 suf hp h2]

/-- C9 witness: a 42-byte zero prefix with two different length fields
parses identically, and an accepted all-zero 46-byte body has the empty
description `body.drop 46`. -/
theorem c9_desc_len_ignored_witness :
    parse_body (List.replicate 42 0 ++ [1, 2, 3, 4] ++ []) =
      parse_body (List.replicate 42 0 ++ [9, 9, 9, 9] ++ []) ∧
    ({ tx_id := 0, tx_type := .DEPOSIT, from_user := 0, to_user := 0,
       amount := 0, timestamp := 0, status := .SUCCESS,
       description := [] } : Record).description =
      (List.replicate 46 0).drop 46 :=
  ⟨c9_desc_len_ignored.1 (List.replicate 42 0) [1, 2, 3, 4] [9, 9, 9, 9] []
      (by decide) (by decide) (by decide),
   c9_desc_len_ignored.2 (List.replicate 46 0) _ (by decide)⟩

/-- C10: a blank line reached before any field line — even after comment
lines — makes the TXT reader's produce operation return the end-of-stream
signal whatever complete records follow, so two consecutive blank lines
between records silently truncate the stream. -/
theorem c10_txt_blank_truncates :
    (∀ pre rest : List (List Nat), (∀ l ∈ pre, l.head? = some 35) →
      TxtReader.produce_record (pre ++ [] :: rest) = .eos) ∧
    txtProduceAll (txtRecordLines ++ [] :: [] :: txtRecordLines) =
      [some (.ok txtRecord)] :=
  ⟨txt_blank_eos, txt_double_blank⟩

/-- C10 witness: after one comment line, a blank line ends the stream even
with a full record following. -/
theorem c10_txt_blank_truncates_witness :
    TxtReader.produce_record ([asciiBytes "# note"] ++ [] :: txtRecordLines) =
      .eos :=
  c10_txt_blank_truncates.1 [asciiBytes "# note"] txtRecordLines (by decide)

end Parserde









